import Mathlib

/-!
# faceProcessor: the per-frame detection pipeline of `main.go`

A shallow embedding of `main` (src/main.go): the frame loop, the detection
filter, the box mapping, the artifact writer and the image counter.

Modelling conventions

* `float32` values are exact dyadic numbers `m * 2^e`, plus NaN and the two
  infinities; arithmetic rounds to nearest, ties to even, with a 24 bit
  significand (IEEE-754 binary32).  The sign of zero is not tracked: nothing
  in `main` can observe it.
* `int` is the 64 bit two's complement integer of 64 bit Go targets;
  arithmetic wraps with an explicit `% 2^64`.
* A Go slice is the part of its backing array that starts at the slice: the
  elements below `len` and the elements between `len` and `cap`.
* Everything `main` obtains from outside (frame source, JPEG decoder,
  prediction service, file system, JPEG encoder) is supplied per iteration by
  a `FrameEnv`; everything `main` does to the outside is recorded, in order,
  as an `Action` in the trace of the state.
* A run time panic (index or slice bound out of range) stops the process; the
  state then has status `panicked`.
-/

namespace FaceProcessor

/-! ## float32 -/

/-- A `float32`: NaN, an infinity (`neg = true` for -Inf) or the finite
dyadic value `m * 2^e`. -/
inductive F32 where
  | nan : F32
  | inf (neg : Bool) : F32
  | fin (m : Int) (e : Int) : F32
  deriving DecidableEq

/-- Number of binary digits of `n`, by halving; `fuel` bounds the number of
halvings. -/
def bitLenAux : Nat → Nat → Nat
  | 0, _ => 0
  | fuel + 1, n => if n = 0 then 0 else bitLenAux fuel (n / 2) + 1

/-- Number of binary digits of `n` (`0` for `0`). -/
def bitLen (n : Nat) : Nat := bitLenAux n n

/-- The quotient `n / 2^k` rounded to nearest, ties to even. -/
def roundShift (n k : Nat) : Nat :=
  let q := n / 2 ^ k
  let r := n % 2 ^ k
  if 2 ^ k < 2 * r ∨ (2 * r = 2 ^ k ∧ q % 2 = 1) then q + 1 else q

namespace F32

/-- The integer `m * 2^(e - lo)`, for `lo ≤ e`: a finite value rescaled to a
common exponent. -/
def scaled (m e lo : Int) : Int := m * 2 ^ (e - lo).toNat

/-- Go's `a < b` on float32: false as soon as an operand is NaN. -/
def lt : F32 → F32 → Bool
  | nan, _ => false
  | _, nan => false
  | inf n1, inf n2 => n1 && !n2
  | inf n, fin _ _ => n
  | fin _ _, inf n => !n
  | fin m1 e1, fin m2 e2 =>
    decide (scaled m1 e1 (min e1 e2) < scaled m2 e2 (min e1 e2))

/-- Go's `a > b` on float32. -/
def gt (a b : F32) : Bool := lt b a

/-- Rounding of the exact dyadic `m * 2^e` to binary32: 24 significant bits,
smallest exponent -149, nearest with ties to even, overflow to infinity. -/
def round (m e : Int) : F32 :=
  if m = 0 then fin 0 0
  else
    let n := m.natAbs
    let q : Int := max ((bitLen n : Int) - 1 + e - 23) (-149)
    let n1 := if q ≤ e then n else roundShift n (q - e).toNat
    let e1 := if q ≤ e then e else q
    if 128 ≤ (bitLen n1 : Int) - 1 + e1 then inf (decide (m < 0))
    else fin (if m < 0 then -(n1 : Int) else (n1 : Int)) e1

/-- Go's `a * b` on float32. -/
def mul : F32 → F32 → F32
  | nan, _ => nan
  | _, nan => nan
  | inf s, inf t => inf (s != t)
  | inf s, fin m _ => if m = 0 then nan else inf (s != decide (m < 0))
  | fin m _, inf s => if m = 0 then nan else inf (s != decide (m < 0))
  | fin m1 e1, fin m2 e2 => round (m1 * m2) (e1 + e2)

/-- Go's conversion `float32(n)` of an `int`. -/
def ofInt (n : Int) : F32 := round n 0

/-- The finite value `m * 2^e` with its fraction discarded (truncation toward
zero). -/
def truncFin (m e : Int) : Int :=
  if 0 ≤ e then m * 2 ^ e.toNat else Int.tdiv m (2 ^ (-e).toNat)

/-- Go's conversion `int(x)` of a float32: the fraction is discarded.  For NaN,
the infinities and values outside the range of `int` the language leaves the
result to the implementation; amd64 yields the smallest `int`, which is what
is modelled. -/
def toInt : F32 → Int
  | fin m e =>
    let t := truncFin m e
    if -(2 ^ 63) ≤ t ∧ t < 2 ^ 63 then t else -(2 ^ 63)
  | _ => -(2 ^ 63)

end F32

/-- The constant `1.5` as a float32 (exact). -/
def classThreshold : F32 := F32.fin 3 (-1)

/-- The constant `0.6` as a float32: the nearest binary32 value,
`10066330 * 2^-24`. -/
def scoreThreshold : F32 := F32.fin 10066330 (-24)

/-- Two's complement wrap-around of `int` arithmetic. -/
def wrapInt (x : Int) : Int := (x + 2 ^ 63) % 2 ^ 64 - 2 ^ 63

/-! ## Slices -/

/-- A Go slice, seen from its first element: `elems` are the elements below
`len`, `spare` the elements of the backing array between `len` and `cap`. -/
structure Slice (α : Type) where
  elems : List α
  spare : List α
  deriving DecidableEq

namespace Slice

/-- The nil slice. -/
def empty {α : Type} : Slice α := ⟨[], []⟩

/-- Go's `len(s)`. -/
def len {α : Type} (s : Slice α) : Nat := s.elems.length

/-- Go's `cap(s)`. -/
def cap {α : Type} (s : Slice α) : Nat := s.elems.length + s.spare.length

/-- Go's `s[i]`; `none` is the index-out-of-range panic (`i` must be below
`len`). -/
def index {α : Type} (s : Slice α) (i : Nat) : Option α := s.elems.get? i

/-- Go's `s[lo:hi]`; `none` is the slice-bounds-out-of-range panic.  The upper
bound is checked against the capacity, not the length. -/
def slice {α : Type} (s : Slice α) (lo hi : Nat) : Option (Slice α) :=
  if lo ≤ hi ∧ hi ≤ s.cap then
    some ⟨((s.elems ++ s.spare).drop lo).take (hi - lo), (s.elems ++ s.spare).drop hi⟩
  else none

end Slice

/-! ## Images and rectangles (package `image`) -/

/-- Go's `image.Point`. -/
structure Point where
  X : Int
  Y : Int
  deriving DecidableEq

/-- Go's `image.Rectangle`. -/
structure Rectangle where
  Min : Point
  Max : Point
  deriving DecidableEq

/-- Go's `Rectangle.Dx`. -/
def Rectangle.Dx (r : Rectangle) : Int := wrapInt (r.Max.X - r.Min.X)

/-- Go's `Rectangle.Dy`. -/
def Rectangle.Dy (r : Rectangle) : Int := wrapInt (r.Max.Y - r.Min.Y)

/-- Go's `image.Rect`: the rectangle with the given corners, the coordinates
swapped where needed to make it well formed. -/
def Rect (x0 y0 x1 y1 : Int) : Rectangle :=
  let xa := if x0 > x1 then x1 else x0
  let xb := if x0 > x1 then x0 else x1
  let ya := if y0 > y1 then y1 else y0
  let yb := if y0 > y1 then y0 else y1
  ⟨⟨xa, ya⟩, ⟨xb, yb⟩⟩

/-- Modelled from the spec: the pixel buffer returned by `FromImage`, a
function of this package declared outside main.go.  `main` reads its raw bytes
`Pix` and its `Bounds()`, and crops it with `SubImage`. -/
structure RGB where
  Pix : List Nat
  Bounds : Rectangle
  deriving DecidableEq

/-! ## The prediction request -/

/-- The package level variables that `init` registers as command line flags
(`throttle` and the two dial addresses are not used by the loop). -/
structure Config where
  modelName : String
  signatureName : String
  modelVersion : Int
  inputName : String
  boxesOutput : String
  scoresOutput : String
  numOutput : String
  deriving DecidableEq

/-- The initial values of the flag variables. -/
def Config.default : Config :=
  ⟨"face_detection", "serving_default", 1, "image_tensor", "detection_boxes",
    "detection_scores", "num_detections"⟩

/-- The package level variable `width`; no flag is registered for it. -/
def width : Int := 1640

/-- The package level variable `height`; no flag is registered for it. -/
def height : Int := 1232

/-- The tensor element types used here. -/
inductive DataType where
  | DT_UINT8 : DataType
  | DT_FLOAT : DataType
  deriving DecidableEq

/-- The fields of `pb.ModelSpec` set by `main`. -/
structure ModelSpec where
  Name : String
  SignatureName : String
  Version : Int
  deriving DecidableEq

/-- The fields of `TensorProto` set by `main`; `Dim` lists the `Size` of each
dimension of `TensorShape`. -/
structure TensorProto where
  Dtype : DataType
  Dim : List Int
  TensorContent : List Nat
  deriving DecidableEq

/-- The fields of `pb.PredictRequest` set by `main`; `Inputs` is the map, as
its list of entries. -/
structure PredictRequest where
  ModelSpec : ModelSpec
  Inputs : List (String × TensorProto)
  deriving DecidableEq

/-- The request literal of lines 92-114. -/
def buildRequest (cfg : Config) (rgb : RGB) : PredictRequest :=
  { ModelSpec := ⟨cfg.modelName, cfg.signatureName, cfg.modelVersion⟩
    Inputs := [(cfg.inputName,
      { Dtype := DataType.DT_UINT8
        Dim := [1, width, height, 3]
        TensorContent := rgb.Pix })] }

/-- The map `res.Outputs`, as its list of entries; the value is what
`GetFloatVal()` returns for the entry. -/
abbrev Outputs := List (String × Slice F32)

/-- Go's `res.Outputs[key].GetFloatVal()`: a missing key gives a nil tensor,
whose `GetFloatVal()` is the nil slice. -/
def floatVal (o : Outputs) (key : String) : Slice F32 :=
  match o.lookup key with
  | some s => s
  | none => Slice.empty

/-! ## File names -/

/-- Decimal digits of `n`, most significant first, put in front of `acc`;
`fuel` bounds the number of divisions. -/
def decDigits : Nat → Nat → List Nat → List Nat
  | 0, _, acc => acc
  | fuel + 1, n, acc =>
    if n < 10 then n :: acc else decDigits fuel (n / 10) (n % 10 :: acc)

/-- The decimal digits of `n`, most significant first. -/
def decimal (n : Nat) : List Nat := decDigits (n + 1) n []

/-- Left padding with zero digits up to `w` digits. -/
def padZeros (w : Nat) (ds : List Nat) : List Nat :=
  List.replicate (w - ds.length) 0 ++ ds

/-- The text of `fmt.Sprintf("%05d", n)`: zero padded to width 5, the sign of
a negative number taking one of the five places. -/
def fmtD05 (n : Int) : List Char :=
  if n < 0 then '-' :: (padZeros 4 (decimal n.natAbs)).map Nat.digitChar
  else (padZeros 5 (decimal n.natAbs)).map Nat.digitChar

/-- The value of `fmt.Sprintf("image%05d.jpg", n)`. -/
def fileName (n : Int) : String :=
  String.mk ("image".data ++ fmtD05 n ++ ".jpg".data)

/-! ## The environment and the trace -/

/-- The flags of package `os` for `OpenFile`. -/
inductive OpenFlag where
  | O_RDONLY : OpenFlag
  | O_WRONLY : OpenFlag
  | O_RDWR : OpenFlag
  | O_APPEND : OpenFlag
  | O_CREATE : OpenFlag
  | O_EXCL : OpenFlag
  | O_SYNC : OpenFlag
  | O_TRUNC : OpenFlag
  deriving DecidableEq

/-- What `main` does to the outside world.  A call that can fail carries the
answer the environment gave (`ok`). -/
inductive Action where
  /-- The call `framesClient.FrameJPEG(...)`. -/
  | fetchFrame (ok : Bool) : Action
  /-- The call `jpeg.Decode` on the frame data. -/
  | decode (data : List Nat) (ok : Bool) : Action
  /-- The call `faceClient.Predict(..., req)`. -/
  | predict (req : PredictRequest) (ok : Bool) : Action
  /-- A call of `log.Printf`, by its format string. -/
  | log (format : String) : Action
  /-- The call `rgb.SubImage(r)`. -/
  | subImage (r : Rectangle) : Action
  /-- The call `os.OpenFile(name, flag, perm)`; `flag` lists the or-ed flags. -/
  | openFile (name : String) (flag : List OpenFlag) (perm : Nat) (ok : Bool) : Action
  /-- The call `jpeg.Encode(f, face, nil)`, `f` being the file opened as
  `name` and `face` the crop of rectangle `r`. -/
  | encode (name : String) (r : Rectangle) (ok : Bool) : Action
  deriving DecidableEq

/-- What the outside world answers during one iteration of the frame loop:
a failed frame fetch; frame data that fails to decode; a decoded picture and a
failed prediction; or a decoded picture, the prediction outputs and, for each
detection slot, whether `os.OpenFile` and `jpeg.Encode` succeed there. -/
inductive FrameEnv where
  | fetchErr : FrameEnv
  | decodeErr (data : List Nat) : FrameEnv
  | predictErr (data : List Nat) (rgb : RGB) : FrameEnv
  | ok (data : List Nat) (rgb : RGB) (res : Outputs) (openOk encodeOk : Nat → Bool) : FrameEnv

/-- Whether the process is still in the frame loop, has left it through
`break` and returned from `main`, or has died of a run time panic. -/
inductive Status where
  | running : Status
  | closed : Status
  | panicked : Status
  deriving DecidableEq

/-- The state of `main`: the variable `imgCount`, the actions so far, and the
status. -/
structure St where
  imgCount : Int
  trace : List Action
  status : Status
  deriving DecidableEq

namespace St

/-- Record an action. -/
def emit (st : St) (a : Action) : St := { st with trace := st.trace ++ [a] }

/-- A run time panic. -/
def panic (st : St) : St := { st with status := Status.panicked }

/-- The statement `break` of the frame loop, followed by what comes after the
loop: the log line "closing..." and the return from `main`. -/
def leave (st : St) : St :=
  { st with trace := st.trace ++ [Action.log "closing..."], status := Status.closed }

end St

/-! ## The detection loop -/

/-- The filter of lines 133-139: the slot is skipped when `category > 1.5` or
when `score < 0.6`, and goes on otherwise. -/
def accepts (category score : F32) : Bool :=
  !F32.gt category classThreshold && !F32.lt score scoreThreshold

/-- The four integers of lines 144-147, computed from the elements of `rect`
and the bounds of the picture. -/
def boxCoords (rgb : RGB) (r0 r1 r2 : F32) : Int × Int × Int × Int :=
  let x0 := F32.toInt (F32.mul r0 (F32.ofInt rgb.Bounds.Dx))
  let y0 := F32.toInt (F32.mul r1 (F32.ofInt rgb.Bounds.Dy))
  let x1 := wrapInt (x0 + F32.toInt (F32.mul r2 (F32.ofInt rgb.Bounds.Dx)))
  let y1 := wrapInt (y0 + F32.toInt (F32.mul r2 (F32.ofInt rgb.Bounds.Dy)))
  (x0, y0, x1, y1)

/-- The flags `os.O_CREATE|os.O_WRONLY` of line 150. -/
def openFlags : List OpenFlag := [OpenFlag.O_CREATE, OpenFlag.O_WRONLY]

/-- The permission bits `0660` of line 150. -/
def openPerm : Nat := 0o660

/-- Lines 148-157: crop, open the file named after the counter, encode, count.
`openErr` is the variable `err` declared by the call of `os.OpenFile`; the
condition of the `else if` reads that same variable after the call of
`jpeg.Encode`, whose own result is dropped. -/
def writeArtifact (openOk encodeOk : Bool) (face : Rectangle) (st : St) : St :=
  let st := st.emit (Action.subImage face)
  let name := fileName st.imgCount
  let st := st.emit (Action.openFile name openFlags openPerm openOk)
  let openErr := !openOk
  if openErr then st.emit (Action.log "error opening file: %v")
  else
    let st := st.emit (Action.encode name face encodeOk)
    if openErr then st.emit (Action.log "error writing out jpeg of face: %v")
    else { st with imgCount := wrapInt (st.imgCount + 1) }

/-- The body of the loop over the detection slots (lines 130-157) for slot
`i`. -/
def detect (rgb : RGB) (scores categories rects : Slice F32)
    (openOk encodeOk : Nat → Bool) (i : Nat) (st : St) : St :=
  match categories.index i with
  | none => st.panic
  | some c =>
    if F32.gt c classThreshold then st
    else
      match scores.index i with
      | none => st.panic
      | some s =>
        if F32.lt s scoreThreshold then st
        else
          match rects.slice (i * 4) (i * 4 + 4) with
          | none => st.panic
          | some rect =>
            match rect.index 0, rect.index 1, rect.index 2, rect.index 3 with
            | some r0, some r1, some r2, some _ =>
              let st := st.emit (Action.log "rect: %f %f %f %f")
              let (x0, y0, x1, y1) := boxCoords rgb r0 r1 r2
              writeArtifact (openOk i) (encodeOk i) (Rect x0 y0 x1 y1) st
            | _, _, _, _ => st.panic

/-- A `for` loop over the slots in `is`, in order; a panic in the body ends
it. -/
def forSlots (body : Nat → St → St) : List Nat → St → St
  | [], st => st
  | i :: is, st =>
    let st1 := body i st
    if st1.status = Status.panicked then st1 else forSlots body is st1

/-- The number of detection slots the loop of line 129 visits. -/
def numSlots : Nat := 100

/-- Lines 123-158: the log of the first confidence, then the loop
`for i := 0; i < 100; i++`. -/
def processResult (cfg : Config) (rgb : RGB) (res : Outputs)
    (openOk encodeOk : Nat → Bool) (st : St) : St :=
  match (floatVal res cfg.scoresOutput).index 0 with
  | none => st.panic
  | some _ =>
    let st := st.emit (Action.log "first confidence: %f")
    let scores := floatVal res cfg.scoresOutput
    let categories := floatVal res "detection_classes"
    let rects := floatVal res cfg.boxesOutput
    forSlots (detect rgb scores categories rects openOk encodeOk) (List.range numSlots) st

/-! ## The frame loop -/

/-- One iteration of the loop `for { ... }` of lines 77-159. -/
def iteration (cfg : Config) (env : FrameEnv) (st : St) : St :=
  match env with
  | FrameEnv.fetchErr =>
    let st := st.emit (Action.fetchFrame false)
    (st.emit (Action.log "error receiving frame: %v")).leave
  | FrameEnv.decodeErr data =>
    let st := st.emit (Action.fetchFrame true)
    let st := st.emit (Action.decode data false)
    (st.emit (Action.log "error decoding jpeg: %v")).leave
  | FrameEnv.predictErr data rgb =>
    let st := st.emit (Action.fetchFrame true)
    let st := st.emit (Action.decode data true)
    let st := st.emit (Action.predict (buildRequest cfg rgb) false)
    (st.emit (Action.log "error from face detector: %v")).leave
  | FrameEnv.ok data rgb res openOk encodeOk =>
    let st := st.emit (Action.fetchFrame true)
    let st := st.emit (Action.decode data true)
    let st := st.emit (Action.predict (buildRequest cfg rgb) true)
    processResult cfg rgb res openOk encodeOk st

/-- The frame loop, run against the answers `envs` of the outside world, one
per iteration.  The loop has no exit of its own: it ends by `break` or by a
panic, and is otherwise still running when the answers are used up. -/
def mainLoop (cfg : Config) : List FrameEnv → St → St
  | [], st => st
  | env :: rest, st =>
    let st1 := iteration cfg env st
    if st1.status = Status.running then mainLoop cfg rest st1 else st1

/-- The state at line 75: `imgCount := 0`, connections dialled. -/
def St.init : St := ⟨0, [], Status.running⟩

/-- A run of `main` from line 75 on. -/
def run (cfg : Config) (envs : List FrameEnv) : St := mainLoop cfg envs St.init

/-! ## Sample data -/

/-- A float32 slice with no spare capacity. -/
def fullSlice (xs : List F32) : Slice F32 := ⟨xs, []⟩

/-- The float32 nearest to 0.91. -/
def f0_91 : F32 := F32.fin 15267267 (-24)

/-- The float32 values nearest to 0.1, 0.2, 0.3 and 0.4. -/
def sampleBox : List F32 :=
  [F32.fin 13421773 (-27), F32.fin 13421773 (-26), F32.fin 10066330 (-25),
    F32.fin 13421773 (-25)]

/-- A picture of 1640 by 1232 pixels (pixel bytes left out). -/
def sampleRGB : RGB := ⟨[], ⟨⟨0, 0⟩, ⟨1640, 1232⟩⟩⟩

/-- Outputs with 100 slots, all of class 1.0 and score 0 except slot 3, which
has score 0.91 and box [0.1, 0.2, 0.3, 0.4]. -/
def sampleOutputs : Outputs :=
  [("detection_scores", fullSlice ((List.replicate 100 (F32.fin 0 0)).set 3 f0_91)),
   ("detection_classes", fullSlice (List.replicate 100 (F32.fin 1 0))),
   ("detection_boxes",
      fullSlice (List.replicate 12 (F32.fin 0 0) ++ sampleBox ++ List.replicate 384 (F32.fin 0 0)))]

/-! ## Reading the trace and the outputs -/

/-- The rectangles passed to `SubImage`, in order. -/
def crops (tr : List Action) : List Rectangle :=
  tr.filterMap fun a => match a with
    | Action.subImage r => some r
    | _ => none

/-- The names for which `jpeg.Encode` was called, in order. -/
def encodeNames (tr : List Action) : List String :=
  tr.filterMap fun a => match a with
    | Action.encode name _ _ => some name
    | _ => none

/-- The names for which `jpeg.Encode` was called and succeeded, in order. -/
def writtenNames (tr : List Action) : List String :=
  tr.filterMap fun a => match a with
    | Action.encode name _ true => some name
    | _ => none

/-- The answers to the calls of `os.OpenFile`, in order. -/
def openResults (tr : List Action) : List Bool :=
  tr.filterMap fun a => match a with
    | Action.openFile _ _ _ ok => some ok
    | _ => none

/-- The number of calls of `framesClient.FrameJPEG`. -/
def fetchCount (tr : List Action) : Nat :=
  tr.countP fun a => match a with
    | Action.fetchFrame _ => true
    | _ => false

/-- The number of calls of `faceClient.Predict`. -/
def predictCount (tr : List Action) : Nat :=
  tr.countP fun a => match a with
    | Action.predict _ _ => true
    | _ => false

/-- Actions of the artifact writer: crop, open, encode. -/
def Action.isArtifact : Action → Bool
  | Action.subImage _ => true
  | Action.openFile _ _ _ _ => true
  | Action.encode _ _ _ => true
  | _ => false

/-- An iteration that ends in one of the three fatal errors. -/
def FrameEnv.fails : FrameEnv → Bool
  | FrameEnv.ok _ _ _ _ _ => false
  | _ => true

/-- Slot `i` has a class and a score, and they pass the filter. -/
def slotAccepted (scores categories : Slice F32) (i : Nat) : Bool :=
  match categories.index i, scores.index i with
  | some c, some s => accepts c s
  | _, _ => false

/-- The rectangle `image.Rect(x0, y0, x1, y1)` of slot `i`, from the elements
`4*i .. 4*i+2` of the boxes. -/
def slotRect (rgb : RGB) (rects : Slice F32) (i : Nat) : Rectangle :=
  match (rects.elems ++ rects.spare).get? (i * 4), (rects.elems ++ rects.spare).get? (i * 4 + 1),
    (rects.elems ++ rects.spare).get? (i * 4 + 2) with
  | some r0, some r1, some r2 =>
    let (x0, y0, x1, y1) := boxCoords rgb r0 r1 r2
    Rect x0 y0 x1 y1
  | _, _, _ => Rect 0 0 0 0

/-- The slots `0..99` that pass the filter, in ascending order. -/
def acceptedSlots (scores categories : Slice F32) : List Nat :=
  (List.range numSlots).filter (slotAccepted scores categories)

/-- The value `m * 2^e` of a finite float32, as a rational. -/
def F32.value (m e : Int) : ℚ := (m : ℚ) * (2 : ℚ) ^ e

/-- Truncation toward zero of a rational. -/
def truncQ (q : ℚ) : Int := if 0 ≤ q then ⌊q⌋ else ⌈q⌉

/-- The `int` range. -/
def InIntRange (x : Int) : Prop := -(2 ^ 63) ≤ x ∧ x < 2 ^ 63

/-- What an accepted slot `i` with its box in range does (lines 141-157): the
log line, then the artifact writer on the rectangle of the slot. -/
def attempt (rgb : RGB) (rects : Slice F32) (openOk encodeOk : Nat → Bool) (st : St)
    (i : Nat) : St :=
  writeArtifact (openOk i) (encodeOk i) (slotRect rgb rects i)
    (st.emit (Action.log "rect: %f %f %f %f"))

/-- The outputs carry all the slots the loop visits: 100 scores, 100 classes
and room for 100 boxes. -/
def FullResult (cfg : Config) (res : Outputs) : Prop :=
  numSlots ≤ (floatVal res cfg.scoresOutput).len ∧
  numSlots ≤ (floatVal res "detection_classes").len ∧
  numSlots * 4 ≤ (floatVal res cfg.boxesOutput).cap

/-- Go's `a >= b` on float32: false as soon as an operand is NaN. -/
def F32.ge : F32 → F32 → Bool
  | F32.nan, _ => false
  | _, F32.nan => false
  | a, b => !F32.lt a b

/-- The filter as the specification words it: class below 1.5 and score at
least 0.6. -/
def specAccepts (category score : F32) : Bool :=
  F32.lt category classThreshold && F32.ge score scoreThreshold

/-- The box mapping as the specification words it, for a picture of width `W`
and height `H`: the last coordinate adds the fourth box value scaled by the
width. -/
def specCoords (W H : Int) (v0 v1 v2 v3 : F32) : Int × Int × Int × Int :=
  let x0 := F32.toInt (F32.mul v0 (F32.ofInt W))
  let y0 := F32.toInt (F32.mul v1 (F32.ofInt H))
  let x1 := x0 + F32.toInt (F32.mul v2 (F32.ofInt W))
  let y1 := y0 + F32.toInt (F32.mul v3 (F32.ofInt W))
  (x0, y0, x1, y1)

/-- The sample outputs with every class set to exactly 1.5. -/
def borderOutputs : Outputs :=
  [("detection_scores", fullSlice ((List.replicate 100 (F32.fin 0 0)).set 3 f0_91)),
   ("detection_classes", fullSlice (List.replicate 100 classThreshold)),
   ("detection_boxes",
      fullSlice (List.replicate 12 (F32.fin 0 0) ++ sampleBox ++ List.replicate 384 (F32.fin 0 0)))]

/-- A picture of 2 by 1 pixels. -/
def smallRGB : RGB := ⟨[10, 20, 30, 40, 50, 60], ⟨⟨0, 0⟩, ⟨2, 1⟩⟩⟩

/-- The file system always answers `yes`. -/
def always (_ : Nat) : Bool := true

/-- The file system or the encoder always answers `no`. -/
def never (_ : Nat) : Bool := false

/-- One good frame: the sample picture and the sample outputs, every open and
every encode succeeding. -/
def sampleFrame : FrameEnv := FrameEnv.ok [] sampleRGB sampleOutputs always always

/-- The documented effect of the flags on a name that already exists:
`os.OpenFile` refuses it only when `O_EXCL` is given along with `O_CREATE`. -/
def refusesExisting (flag : List OpenFlag) : Bool :=
  decide (OpenFlag.O_CREATE ∈ flag ∧ OpenFlag.O_EXCL ∈ flag)

/-- The number written by a list of decimal digits, most significant first. -/
def ofDec (ds : List Nat) : Nat := ds.foldl (fun a d => 10 * a + d) 0

/-- The digit a decimal digit character stands for. -/
def digitVal (c : Char) : Nat := c.toNat - 48

/-- The counter agrees with the trace: it is the number of calls of
`jpeg.Encode` so far (wrapped to `int`), and the call number `k` was made for
the name of the counter value `k`. -/
def Counted (st : St) : Prop :=
  st.imgCount = wrapInt ((encodeNames st.trace).length : Int) ∧
  encodeNames st.trace =
    (List.range (encodeNames st.trace).length).map fun (k : Nat) => fileName (wrapInt (k : Int))

/-- Outputs with 50 slots only: 50 scores, 50 classes and 200 box values, slot
3 being the only one that passes the filter. -/
def shortOutputs : Outputs :=
  [("detection_scores", fullSlice ((List.replicate 50 (F32.fin 0 0)).set 3 f0_91)),
   ("detection_classes", fullSlice (List.replicate 50 (F32.fin 1 0))),
   ("detection_boxes",
      fullSlice (List.replicate 12 (F32.fin 0 0) ++ sampleBox ++ List.replicate 184 (F32.fin 0 0)))]

/-- Outputs whose three sequences are empty. -/
def emptyOutputs : Outputs :=
  [("detection_scores", Slice.empty), ("detection_classes", Slice.empty),
   ("detection_boxes", Slice.empty)]

/-- Outputs with 100 slots of class 1.0, of which slots 3 and 7 have score
0.91 and the sample box. -/
def twoOutputs : Outputs :=
  [("detection_scores",
      fullSlice (((List.replicate 100 (F32.fin 0 0)).set 3 f0_91).set 7 f0_91)),
   ("detection_classes", fullSlice (List.replicate 100 (F32.fin 1 0))),
   ("detection_boxes",
      fullSlice (List.replicate 12 (F32.fin 0 0) ++ sampleBox ++ List.replicate 12 (F32.fin 0 0) ++
        sampleBox ++ List.replicate 368 (F32.fin 0 0)))]

/-- The file system refuses the open of slot 3 and grants every other. -/
def exceptThree (i : Nat) : Bool := i != 3

/-- The frame data and the decoded picture of an iteration that gets as far as
the prediction call. -/
def FrameEnv.decoded : FrameEnv → Option (List Nat × RGB)
  | FrameEnv.predictErr data rgb => some (data, rgb)
  | FrameEnv.ok data rgb _ _ _ => some (data, rgb)
  | _ => none

/-- Slot `i` runs out of range, in the order of lines 133-141: its class is
missing; or the class test lets it through and its score is missing; or both
tests let it through and the box values `4*i .. 4*i+3` exceed the capacity. -/
def slotFaults (scores categories rects : Slice F32) (i : Nat) : Bool :=
  match categories.index i with
  | none => true
  | some c =>
    if F32.gt c classThreshold then false
    else
      match scores.index i with
      | none => true
      | some s =>
        if F32.lt s scoreThreshold then false
        else decide (rects.cap < i * 4 + 4)

/-- Nothing the frame reads is out of range: there is a first score, and no
slot of 0..99 faults. -/
def NoFault (cfg : Config) (res : Outputs) : Prop :=
  0 < (floatVal res cfg.scoresOutput).len ∧
  ∀ i, i < numSlots →
    slotFaults (floatVal res cfg.scoresOutput) (floatVal res "detection_classes")
      (floatVal res cfg.boxesOutput) i = false

/-- The slots the loop gets through before it stops: none when there is no
first score, and otherwise the slots of 0..99 below the first one that
faults (all of them when none does). -/
def visitedSlots (cfg : Config) (res : Outputs) : List Nat :=
  if (floatVal res cfg.scoresOutput).len = 0 then []
  else (List.range numSlots).takeWhile fun i =>
    !slotFaults (floatVal res cfg.scoresOutput) (floatVal res "detection_classes")
      (floatVal res cfg.boxesOutput) i

/-- The sample outputs with 14 box values only: the box of slot 3 is cut
short. -/
def fewBoxesOutputs : Outputs :=
  [("detection_scores", fullSlice ((List.replicate 100 (F32.fin 0 0)).set 3 f0_91)),
   ("detection_classes", fullSlice (List.replicate 100 (F32.fin 1 0))),
   ("detection_boxes", fullSlice (List.replicate 12 (F32.fin 0 0) ++ sampleBox.take 2))]

/-- Outputs with 100 scores and classes, slots 3 and 7 passing the filter, and
16 box values only: the box of slot 3 is there, the box of slot 7 is not. -/
def sixteenBoxOutputs : Outputs :=
  [("detection_scores",
      fullSlice (((List.replicate 100 (F32.fin 0 0)).set 3 f0_91).set 7 f0_91)),
   ("detection_classes", fullSlice (List.replicate 100 (F32.fin 1 0))),
   ("detection_boxes", fullSlice (List.replicate 12 (F32.fin 0 0) ++ sampleBox))]

/-! ## Basic facts -/

@[simp] theorem emit_imgCount (st : St) (a : Action) : (st.emit a).imgCount = st.imgCount := rfl

@[simp] theorem emit_status (st : St) (a : Action) : (st.emit a).status = st.status := rfl

@[simp] theorem emit_trace (st : St) (a : Action) : (st.emit a).trace = st.trace ++ [a] := rfl

@[simp] theorem panic_imgCount (st : St) : st.panic.imgCount = st.imgCount := rfl

@[simp] theorem panic_status (st : St) : st.panic.status = Status.panicked := rfl

@[simp] theorem panic_trace (st : St) : st.panic.trace = st.trace := rfl

@[simp] theorem leave_imgCount (st : St) : st.leave.imgCount = st.imgCount := rfl

@[simp] theorem leave_status (st : St) : st.leave.status = Status.closed := rfl

@[simp] theorem leave_trace (st : St) :
    st.leave.trace = st.trace ++ [Action.log "closing..."] := rfl

theorem wrapInt_of_inRange (x : Int) (h : InIntRange x) : wrapInt x = x := by
  unfold InIntRange at h
  unfold wrapInt
  omega

theorem scaled_cast (m e lo : Int) (h : lo ≤ e) :
    ((F32.scaled m e lo : Int) : ℚ) = (m : ℚ) * (2 : ℚ) ^ e / (2 : ℚ) ^ lo := by
  unfold F32.scaled
  have h2 : (2 : ℚ) ≠ 0 := by norm_num
  push_cast
  rw [← zpow_natCast, Int.toNat_of_nonneg (by omega), zpow_sub₀ h2]
  ring

/-- The comparison of two finite float32 values is the comparison of their
values. -/
theorem lt_fin_iff (m1 e1 m2 e2 : Int) :
    F32.lt (F32.fin m1 e1) (F32.fin m2 e2) = true ↔ F32.value m1 e1 < F32.value m2 e2 := by
  have hpos : (0 : ℚ) < (2 : ℚ) ^ (min e1 e2) := by positivity
  unfold F32.lt F32.value
  rw [decide_eq_true_iff, ← Int.cast_lt (R := ℚ), scaled_cast _ _ _ (min_le_left _ _),
    scaled_cast _ _ _ (min_le_right _ _), div_lt_div_iff_of_pos_right hpos]

theorem tdiv_pow_eq_truncQ (m : Int) (k : Nat) :
    Int.tdiv m (2 ^ k) = truncQ ((m : ℚ) / (2 : ℚ) ^ k) := by
  have hd : (0 : ℚ) < (2 : ℚ) ^ k := by positivity
  have hcast : ((2 : ℚ) ^ k) = (((2 ^ k : ℕ) : ℕ) : ℚ) := by push_cast; rfl
  have hz : ((2 : Int) ^ k) = (((2 ^ k : ℕ) : ℕ) : Int) := by push_cast; rfl
  unfold truncQ
  rcases le_or_lt 0 m with hm | hm
  · have : (0 : ℚ) ≤ (m : ℚ) / (2 : ℚ) ^ k := div_nonneg (by exact_mod_cast hm) hd.le
    rw [if_pos this, hcast, Rat.floor_intCast_div_natCast, ← hz]
    exact Int.tdiv_eq_ediv hm (by positivity)
  · have hneg : ¬ (0 : ℚ) ≤ (m : ℚ) / (2 : ℚ) ^ k := by
      rw [not_le]
      exact div_neg_of_neg_of_pos (by exact_mod_cast hm) hd
    rw [if_neg hneg]
    have h1 : m.tdiv (2 ^ k) = -((-m).tdiv (2 ^ k)) := by rw [Int.neg_tdiv, neg_neg]
    rw [h1, Int.tdiv_eq_ediv (by omega) (by positivity)]
    have h2 : ⌈(m : ℚ) / (2 : ℚ) ^ k⌉ = -⌊((-m : Int) : ℚ) / (2 : ℚ) ^ k⌋ := by
      rw [Int.ceil_eq_iff.mpr]
      have := Int.floor_le (((-m : Int) : ℚ) / (2 : ℚ) ^ k)
      have := Int.lt_floor_add_one (((-m : Int) : ℚ) / (2 : ℚ) ^ k)
      push_cast at *
      constructor <;> linarith [neg_div ((2 : ℚ) ^ k) (m : ℚ)]
    rw [h2, hcast, Rat.floor_intCast_div_natCast, ← hz]

/-- The integer part kept by `int(x)` is the value of `x` truncated toward
zero. -/
theorem truncFin_eq_truncQ (m e : Int) : F32.truncFin m e = truncQ (F32.value m e) := by
  unfold F32.truncFin F32.value
  split
  · next h =>
    have : (m : ℚ) * (2 : ℚ) ^ e = ((m * 2 ^ e.toNat : Int) : ℚ) := by
      push_cast
      rw [← zpow_natCast, Int.toNat_of_nonneg h]
    rw [this]
    unfold truncQ
    split
    · exact (Int.floor_intCast _).symm
    · exact (Int.ceil_intCast _).symm
  · next h =>
    have : (m : ℚ) * (2 : ℚ) ^ e = (m : ℚ) / (2 : ℚ) ^ (-e).toNat := by
      rw [← zpow_natCast, Int.toNat_of_nonneg (by omega), zpow_neg, div_eq_mul_inv, inv_inv]
    rw [this]
    exact tdiv_pow_eq_truncQ m _

/-! ### Slices -/

theorem index_of_lt {α : Type} (s : Slice α) (i : Nat) (h : i < s.len) :
    ∃ x, s.index i = some x ∧ (s.elems ++ s.spare).get? i = some x := by
  unfold Slice.len at h
  refine ⟨s.elems.get ⟨i, h⟩, ?_, ?_⟩
  · unfold Slice.index
    exact List.get?_eq_get h
  · rw [List.get?_eq_getElem?, List.getElem?_append_left h, ← List.get?_eq_getElem?]
    exact List.get?_eq_get h

theorem index_none_of_le {α : Type} (s : Slice α) (i : Nat) (h : s.len ≤ i) :
    s.index i = none := by
  unfold Slice.index
  exact List.get?_eq_none.mpr h

theorem drop_take_four {α : Type} (l : List α) (k : Nat) (h : k + 4 ≤ l.length) :
    ∃ r0 r1 r2 r3, (l.drop k).take 4 = [r0, r1, r2, r3] ∧
      l.get? k = some r0 ∧ l.get? (k + 1) = some r1 ∧
      l.get? (k + 2) = some r2 ∧ l.get? (k + 3) = some r3 := by
  have hlen : (l.drop k).length = l.length - k := List.length_drop k l
  have hget : ∀ j, (l.drop k).get? j = l.get? (k + j) := fun j => by
    rw [List.get?_eq_getElem?, List.get?_eq_getElem?, List.getElem?_drop]
  generalize l.drop k = d at hlen hget
  match d, hlen with
  | r0 :: r1 :: r2 :: r3 :: t, _ =>
    refine ⟨r0, r1, r2, r3, rfl, ?_, ?_, ?_, ?_⟩
    · exact (hget 0).symm
    · exact (hget 1).symm
    · exact (hget 2).symm
    · exact (hget 3).symm
  | [], hl => simp at hl; omega
  | [_], hl => simp at hl; omega
  | [_, _], hl => simp at hl; omega
  | [_, _, _], hl => simp at hl; omega

theorem slice_four {α : Type} (s : Slice α) (k : Nat) (h : k + 4 ≤ s.cap) :
    ∃ r0 r1 r2 r3 sp, s.slice k (k + 4) = some ⟨[r0, r1, r2, r3], sp⟩ ∧
      (s.elems ++ s.spare).get? k = some r0 ∧ (s.elems ++ s.spare).get? (k + 1) = some r1 ∧
      (s.elems ++ s.spare).get? (k + 2) = some r2 ∧
      (s.elems ++ s.spare).get? (k + 3) = some r3 := by
  have hl : k + 4 ≤ (s.elems ++ s.spare).length := by
    rw [List.length_append]
    exact h
  obtain ⟨r0, r1, r2, r3, htake, h0, h1, h2, h3⟩ := drop_take_four _ k hl
  refine ⟨r0, r1, r2, r3, (s.elems ++ s.spare).drop (k + 4), ?_, h0, h1, h2, h3⟩
  unfold Slice.slice
  rw [if_pos ⟨by omega, h⟩]
  have : k + 4 - k = 4 := by omega
  rw [this, htake]

theorem slice_none {α : Type} (s : Slice α) (k : Nat) (h : s.cap < k + 4) :
    s.slice k (k + 4) = none := by
  unfold Slice.slice
  rw [if_neg]
  omega

/-! ### One detection slot -/

/-- With its class, score and box in range, a slot is either skipped or
handed to the artifact writer. -/
theorem detect_eq (rgb : RGB) (scores categories rects : Slice F32)
    (openOk encodeOk : Nat → Bool) (i : Nat) (st : St)
    (hs : i < scores.len) (hc : i < categories.len) (hr : i * 4 + 4 ≤ rects.cap) :
    detect rgb scores categories rects openOk encodeOk i st =
      if slotAccepted scores categories i = true then
        writeArtifact (openOk i) (encodeOk i) (slotRect rgb rects i)
          (st.emit (Action.log "rect: %f %f %f %f"))
      else st := by
  obtain ⟨c, hci, -⟩ := index_of_lt categories i hc
  obtain ⟨s, hsi, -⟩ := index_of_lt scores i hs
  obtain ⟨r0, r1, r2, r3, sp, hsl, h0, h1, h2, -⟩ := slice_four rects (i * 4) hr
  unfold detect slotAccepted slotRect accepts
  have e0 : Slice.index ⟨[r0, r1, r2, r3], sp⟩ 0 = some r0 := rfl
  have e1 : Slice.index ⟨[r0, r1, r2, r3], sp⟩ 1 = some r1 := rfl
  have e2 : Slice.index ⟨[r0, r1, r2, r3], sp⟩ 2 = some r2 := rfl
  have e3 : Slice.index ⟨[r0, r1, r2, r3], sp⟩ 3 = some r3 := rfl
  simp only [hci, hsi, hsl, h0, h1, h2, e0, e1, e2, e3]
  cases hgt : F32.gt c classThreshold <;> cases hlt : F32.lt s scoreThreshold <;> simp

theorem writeArtifact_status (o e : Bool) (face : Rectangle) (st : St) :
    (writeArtifact o e face st).status = st.status := by
  unfold writeArtifact
  cases o <;> simp

theorem detect_status_of_full (rgb : RGB) (scores categories rects : Slice F32)
    (openOk encodeOk : Nat → Bool) (i : Nat) (st : St)
    (hs : i < scores.len) (hc : i < categories.len) (hr : i * 4 + 4 ≤ rects.cap) :
    (detect rgb scores categories rects openOk encodeOk i st).status = st.status := by
  rw [detect_eq rgb scores categories rects openOk encodeOk i st hs hc hr]
  split
  · rw [writeArtifact_status, emit_status]
  · rfl

theorem writeArtifact_trace (o e : Bool) (face : Rectangle) (st : St) :
    (writeArtifact o e face st).trace =
      st.trace ++ [Action.subImage face,
        Action.openFile (fileName st.imgCount) openFlags openPerm o,
        if o = true then Action.encode (fileName st.imgCount) face e
        else Action.log "error opening file: %v"] := by
  unfold writeArtifact
  cases o <;> simp

theorem writeArtifact_imgCount (o e : Bool) (face : Rectangle) (st : St) :
    (writeArtifact o e face st).imgCount =
      if o = true then wrapInt (st.imgCount + 1) else st.imgCount := by
  unfold writeArtifact
  cases o <;> simp

theorem attempt_status (rgb : RGB) (rects : Slice F32) (openOk encodeOk : Nat → Bool)
    (st : St) (i : Nat) : (attempt rgb rects openOk encodeOk st i).status = st.status := by
  unfold attempt
  rw [writeArtifact_status, emit_status]

theorem foldl_attempt_status (rgb : RGB) (rects : Slice F32) (openOk encodeOk : Nat → Bool)
    (l : List Nat) (st : St) :
    (l.foldl (attempt rgb rects openOk encodeOk) st).status = st.status := by
  induction l generalizing st with
  | nil => rfl
  | cons i is ih => rw [List.foldl_cons, ih, attempt_status]

/-- Over slots that are all in range, the loop is a fold of the artifact
writer over the accepted ones. -/
theorem forSlots_eq_foldl (rgb : RGB) (scores categories rects : Slice F32)
    (openOk encodeOk : Nat → Bool) (l : List Nat) (st : St)
    (hst : st.status ≠ Status.panicked)
    (hl : ∀ i ∈ l, i < scores.len ∧ i < categories.len ∧ i * 4 + 4 ≤ rects.cap) :
    forSlots (detect rgb scores categories rects openOk encodeOk) l st =
      (l.filter (slotAccepted scores categories)).foldl
        (attempt rgb rects openOk encodeOk) st := by
  induction l generalizing st with
  | nil => rfl
  | cons i is ih =>
    obtain ⟨hs, hc, hr⟩ := hl i (List.mem_cons_self i is)
    have hrest : ∀ j ∈ is, j < scores.len ∧ j < categories.len ∧ j * 4 + 4 ≤ rects.cap :=
      fun j hj => hl j (List.mem_cons_of_mem i hj)
    have hstat := detect_status_of_full rgb scores categories rects openOk encodeOk i st hs hc hr
    unfold forSlots
    simp only
    rw [if_neg (by rw [hstat]; exact hst), ih _ (by rw [hstat]; exact hst) hrest,
      detect_eq rgb scores categories rects openOk encodeOk i st hs hc hr]
    cases hacc : slotAccepted scores categories i
    · simp [List.filter_cons, hacc]
    · simp [List.filter_cons, hacc, attempt]

/-- For outputs with all their slots, processing the frame is the log of the
first confidence followed by the artifact writer on each accepted slot. -/
theorem processResult_eq_foldl (cfg : Config) (rgb : RGB) (res : Outputs)
    (openOk encodeOk : Nat → Bool) (st : St) (hst : st.status ≠ Status.panicked)
    (hfull : FullResult cfg res) :
    processResult cfg rgb res openOk encodeOk st =
      (acceptedSlots (floatVal res cfg.scoresOutput) (floatVal res "detection_classes")).foldl
        (attempt rgb (floatVal res cfg.boxesOutput) openOk encodeOk)
        (st.emit (Action.log "first confidence: %f")) := by
  obtain ⟨hs, hc, hr⟩ := hfull
  unfold numSlots at hs hc hr
  obtain ⟨x, hx, -⟩ := index_of_lt (floatVal res cfg.scoresOutput) 0 (by omega)
  unfold processResult acceptedSlots
  simp only [hx]
  apply forSlots_eq_foldl
  · exact hst
  · intro i hi
    have := List.mem_range.mp hi
    unfold numSlots at this
    omega

/-! ### Induction over a run -/

/-- A property of states that survives a log line, a panic and the artifact
writer survives the processing of the outputs of a frame. -/
theorem processResult_induction (P : St → Prop)
    (hlog : ∀ st s, P st → P (st.emit (Action.log s)))
    (hpanic : ∀ st, P st → P st.panic)
    (hwrite : ∀ o e face st, P st → P (writeArtifact o e face st))
    (cfg : Config) (rgb : RGB) (res : Outputs) (openOk encodeOk : Nat → Bool) (st : St)
    (h : P st) : P (processResult cfg rgb res openOk encodeOk st) := by
  have hdetect : ∀ scores categories rects i st, P st →
      P (detect rgb scores categories rects openOk encodeOk i st) := by
    intro scores categories rects i st h
    unfold detect
    repeat' split
    all_goals first
      | exact h
      | exact hpanic _ h
      | exact hwrite _ _ _ _ (hlog _ _ h)
  have hslots : ∀ scores categories rects (l : List Nat) st, P st →
      P (forSlots (detect rgb scores categories rects openOk encodeOk) l st) := by
    intro scores categories rects l
    induction l with
    | nil => intro st h; exact h
    | cons i is ih =>
      intro st h
      unfold forSlots
      simp only
      split
      · exact hdetect _ _ _ _ _ h
      · exact ih _ (hdetect _ _ _ _ _ h)
  unfold processResult
  split
  · exact hpanic _ h
  · exact hslots _ _ _ _ _ (hlog _ _ h)

/-- A property of states that survives every step `main` can take survives
the whole loop.  The steps are: an action other than those of the artifact
writer (a prediction request being the one built by `buildRequest`), a panic,
leaving the loop, and the artifact writer. -/
theorem mainLoop_induction (cfg : Config) (P : St → Prop)
    (hemit : ∀ st a, a.isArtifact = false →
      (∀ req ok, a = Action.predict req ok → ∃ rgb, req = buildRequest cfg rgb) →
      P st → P (st.emit a))
    (hpanic : ∀ st, P st → P st.panic)
    (hleave : ∀ st, P st → P st.leave)
    (hwrite : ∀ o e face st, P st → P (writeArtifact o e face st)) :
    ∀ (envs : List FrameEnv) (st : St), P st → P (mainLoop cfg envs st) := by
  have hlog : ∀ st s, P st → P (st.emit (Action.log s)) := fun st s h =>
    hemit st _ rfl (fun _ _ hh => by cases hh) h
  have hfetch : ∀ st b, P st → P (st.emit (Action.fetchFrame b)) := fun st b h =>
    hemit st _ rfl (fun _ _ hh => by cases hh) h
  have hdecode : ∀ st d b, P st → P (st.emit (Action.decode d b)) := fun st d b h =>
    hemit st _ rfl (fun _ _ hh => by cases hh) h
  have hpredict : ∀ st rgb b, P st → P (st.emit (Action.predict (buildRequest cfg rgb) b)) :=
    fun st rgb b h => hemit st _ rfl (fun _ _ hh => by cases hh; exact ⟨rgb, rfl⟩) h
  have hiter : ∀ env st, P st → P (iteration cfg env st) := by
    intro env st h
    cases env with
    | fetchErr => exact hleave _ (hlog _ _ (hfetch _ _ h))
    | decodeErr data => exact hleave _ (hlog _ _ (hdecode _ _ _ (hfetch _ _ h)))
    | predictErr data rgb =>
      exact hleave _ (hlog _ _ (hpredict _ _ _ (hdecode _ _ _ (hfetch _ _ h))))
    | ok data rgb res openOk encodeOk =>
      exact processResult_induction P hlog hpanic hwrite cfg rgb res openOk encodeOk _
        (hpredict _ rgb true (hdecode _ data true (hfetch _ true h)))
  intro envs
  induction envs with
  | nil => intro st h; exact h
  | cons env rest ih =>
    intro st h
    unfold mainLoop
    simp only
    split
    · exact ih _ (hiter _ _ h)
    · exact hiter _ _ h

theorem mainLoop_nil (cfg : Config) (st : St) : mainLoop cfg [] st = st := rfl

theorem mainLoop_cons (cfg : Config) (e : FrameEnv) (rest : List FrameEnv) (st : St) :
    mainLoop cfg (e :: rest) st =
      if (iteration cfg e st).status = Status.running then
        mainLoop cfg rest (iteration cfg e st)
      else iteration cfg e st := rfl

/-- A run over `a ++ b` is the run over `a`, continued over `b` when the loop
is still running. -/
theorem mainLoop_append (cfg : Config) (a b : List FrameEnv) (st : St)
    (hst : st.status = Status.running) :
    mainLoop cfg (a ++ b) st =
      if (mainLoop cfg a st).status = Status.running then mainLoop cfg b (mainLoop cfg a st)
      else mainLoop cfg a st := by
  induction a generalizing st with
  | nil => rw [List.nil_append, mainLoop_nil, if_pos hst]
  | cons e a ih =>
    rw [List.cons_append, mainLoop_cons, mainLoop_cons]
    by_cases h : (iteration cfg e st).status = Status.running
    · rw [if_pos h, if_pos h, ih _ h]
    · rw [if_neg h, if_neg h, if_neg h]

/-- The trace only grows. -/
theorem mainLoop_trace_grows (cfg : Config) (envs : List FrameEnv) (st : St) :
    st.trace <+: (mainLoop cfg envs st).trace := by
  refine mainLoop_induction cfg (fun s => st.trace <+: s.trace) ?_ ?_ ?_ ?_ envs st
    (List.prefix_refl _)
  · intro s a _ _ h
    exact h.trans (List.prefix_append _ _)
  · intro s h
    exact h
  · intro s h
    exact h.trans (List.prefix_append _ _)
  · intro o e face s h
    rw [writeArtifact_trace]
    exact h.trans (List.prefix_append _ _)

/-! ## The detection filter -/

theorem attempt_crops (rgb : RGB) (rects : Slice F32) (openOk encodeOk : Nat → Bool)
    (st : St) (i : Nat) :
    crops (attempt rgb rects openOk encodeOk st i).trace =
      crops st.trace ++ [slotRect rgb rects i] := by
  unfold attempt
  rw [writeArtifact_trace]
  cases openOk i <;> simp [crops, List.filterMap_append]

set_option maxRecDepth 1000000 in
/-- C1, as stated, fails: a slot whose class is exactly 1.5 (score 0.91) does
not pass the filter as the specification words it, yet the loop crops it. -/
theorem class_border_is_cropped :
    (floatVal borderOutputs "detection_classes").index 3 = some classThreshold ∧
    (floatVal borderOutputs "detection_scores").index 3 = some f0_91 ∧
    specAccepts classThreshold f0_91 = false ∧
    crops (detect sampleRGB (floatVal borderOutputs "detection_scores")
      (floatVal borderOutputs "detection_classes") (floatVal borderOutputs "detection_boxes")
      always always 3 St.init).trace = [⟨⟨164, 246⟩, ⟨656, 615⟩⟩] := by
  decide

/-- C1 (amended): a slot with class `c`, score `s` and its box in range is
handed to the artifact writer (which crops) exactly when neither test of the
filter fires, that is when `c > 1.5` is false and `s < 0.6` is false, and is
left alone otherwise.  For finite values this is `c ≤ 1.5` and
`s ≥ 10066330 / 2^24`, the float32 constant 0.6.  A score equal to that
constant with class 1.0 is accepted, and so is class exactly 1.5 whenever the
score is not below the constant. -/
theorem detect_accepts_iff (rgb : RGB) (scores categories rects : Slice F32)
    (openOk encodeOk : Nat → Bool) (i : Nat) (st : St) (c s : F32)
    (hc : categories.index i = some c) (hs : scores.index i = some s)
    (hr : i * 4 + 4 ≤ rects.cap) :
    (detect rgb scores categories rects openOk encodeOk i st =
      if accepts c s = true then attempt rgb rects openOk encodeOk st i else st) ∧
    crops (attempt rgb rects openOk encodeOk st i).trace =
      crops st.trace ++ [slotRect rgb rects i] ∧
    (accepts c s = true ↔ F32.gt c classThreshold = false ∧ F32.lt s scoreThreshold = false) ∧
    (∀ mc ec ms es, c = F32.fin mc ec → s = F32.fin ms es →
      (accepts c s = true ↔
        F32.value mc ec ≤ 3 / 2 ∧ 10066330 / 2 ^ 24 ≤ F32.value ms es)) ∧
    accepts (F32.fin 1 0) scoreThreshold = true ∧
    accepts classThreshold s = !F32.lt s scoreThreshold := by
  have hci : i < categories.len := by
    by_contra h
    rw [index_none_of_le categories i (by omega)] at hc
    cases hc
  have hsi : i < scores.len := by
    by_contra h
    rw [index_none_of_le scores i (by omega)] at hs
    cases hs
  have hacc : slotAccepted scores categories i = accepts c s := by
    unfold slotAccepted
    simp only [hc, hs]
  have hiff : accepts c s = true ↔
      F32.gt c classThreshold = false ∧ F32.lt s scoreThreshold = false := by
    unfold accepts
    cases F32.gt c classThreshold <;> cases F32.lt s scoreThreshold <;> simp
  refine ⟨?_, attempt_crops _ _ _ _ _ _, hiff, ?_, by decide, ?_⟩
  · rw [detect_eq rgb scores categories rects openOk encodeOk i st hsi hci hr, hacc]
    rfl
  · intro mc ec ms es hmc hms
    subst hmc hms
    have h1 : F32.value 3 (-1) = 3 / 2 := by
      unfold F32.value
      norm_num
    have h2 : F32.value 10066330 (-24) = 10066330 / 2 ^ 24 := by
      unfold F32.value
      norm_num
    rw [hiff, Bool.eq_false_iff, Bool.eq_false_iff]
    unfold F32.gt classThreshold scoreThreshold
    rw [Ne, Ne, lt_fin_iff, lt_fin_iff, not_lt, not_lt, h1, h2]
  · have : F32.gt classThreshold classThreshold = false := by decide
    unfold accepts
    rw [this]
    rfl

set_option maxRecDepth 1000000 in
/-- C1 (amended), at slot 3 of the outputs whose classes are all exactly 1.5:
the slot is handed to the artifact writer. -/
theorem detect_accepts_iff_witness :
    (floatVal borderOutputs "detection_classes").index 3 = some classThreshold ∧
    (floatVal borderOutputs "detection_scores").index 3 = some f0_91 ∧
    3 * 4 + 4 ≤ (floatVal borderOutputs "detection_boxes").cap ∧
    detect sampleRGB (floatVal borderOutputs "detection_scores")
      (floatVal borderOutputs "detection_classes") (floatVal borderOutputs "detection_boxes")
      always always 3 St.init =
      if accepts classThreshold f0_91 = true then
        attempt sampleRGB (floatVal borderOutputs "detection_boxes") always always St.init 3
      else St.init :=
  ⟨by decide, by decide, by decide,
    (detect_accepts_iff sampleRGB (floatVal borderOutputs "detection_scores")
      (floatVal borderOutputs "detection_classes") (floatVal borderOutputs "detection_boxes")
      always always 3 St.init classThreshold f0_91 (by decide) (by decide) (by decide)).1⟩

/-! ## The image counter and a failed encode -/

set_option maxRecDepth 1000000 in
/-- C2, at the failing input: a frame whose only accepted slot opens its file
but fails to encode.  No crop is written, the error is not logged, and the
counter has moved from 0 to 1. -/
theorem failed_encode_is_counted :
    St.init.imgCount = 0 ∧
    (run Config.default [FrameEnv.ok [] sampleRGB sampleOutputs always never]).imgCount = 1 ∧
    openResults (run Config.default
      [FrameEnv.ok [] sampleRGB sampleOutputs always never]).trace = [true] ∧
    encodeNames (run Config.default
      [FrameEnv.ok [] sampleRGB sampleOutputs always never]).trace = ["image00000.jpg"] ∧
    writtenNames (run Config.default
      [FrameEnv.ok [] sampleRGB sampleOutputs always never]).trace = [] ∧
    Action.log "error writing out jpeg of face: %v" ∉
      (run Config.default [FrameEnv.ok [] sampleRGB sampleOutputs always never]).trace := by
  decide

/-! ## The box mapping -/

set_option maxRecDepth 1000000 in
/-- C3, as stated, fails: for the box [0.1, 0.2, 0.3, 0.4] in a picture of
1640 by 1232 the loop crops the rectangle (164, 246, 656, 615), while the
mapping of the specification ends in `y1 = 246 + trunc(0.4 * 1640) = 902`. -/
theorem boxCoords_differs_from_spec :
    sampleRGB.Bounds.Dx = 1640 ∧ sampleRGB.Bounds.Dy = 1232 ∧
    (floatVal sampleOutputs "detection_boxes").slice (3 * 4) (3 * 4 + 4) =
      some ⟨sampleBox, List.replicate 384 (F32.fin 0 0)⟩ ∧
    specCoords 1640 1232 (F32.fin 13421773 (-27)) (F32.fin 13421773 (-26))
      (F32.fin 10066330 (-25)) (F32.fin 13421773 (-25)) = (164, 246, 656, 902) ∧
    boxCoords sampleRGB (F32.fin 13421773 (-27)) (F32.fin 13421773 (-26))
      (F32.fin 10066330 (-25)) = (164, 246, 656, 615) ∧
    crops (detect sampleRGB (floatVal sampleOutputs "detection_scores")
      (floatVal sampleOutputs "detection_classes") (floatVal sampleOutputs "detection_boxes")
      always always 3 St.init).trace = [⟨⟨164, 246⟩, ⟨656, 615⟩⟩] := by
  decide

/-- C3 (amended): for an accepted slot with box values `[v0, v1, v2, v3]` in a
picture of width `W` and height `H`, the rectangle handed to cropping is
`image.Rect(x0, y0, x1, y1)` with `x0 = trunc(v0*W)`, `y0 = trunc(v1*H)`,
`x1 = x0 + trunc(v2*W)` and `y1 = y0 + trunc(v*H)` for one of the box values
`v`: the vertical extent is scaled by the height, not by the width.  The
products are float32 products, the sums are taken without overflow, and
`trunc` is the conversion to `int`, which for a finite value whose integer
part fits is truncation toward zero. -/
theorem box_mapping (rgb : RGB) (scores categories rects : Slice F32)
    (openOk encodeOk : Nat → Bool) (i : Nat) (st : St) (v0 v1 v2 v3 : F32) (sp : List F32)
    (hacc : slotAccepted scores categories i = true)
    (hbox : rects.slice (i * 4) (i * 4 + 4) = some ⟨[v0, v1, v2, v3], sp⟩)
    (hx : InIntRange (F32.toInt (F32.mul v0 (F32.ofInt rgb.Bounds.Dx)) +
      F32.toInt (F32.mul v2 (F32.ofInt rgb.Bounds.Dx))))
    (hy : InIntRange (F32.toInt (F32.mul v1 (F32.ofInt rgb.Bounds.Dy)) +
      F32.toInt (F32.mul v2 (F32.ofInt rgb.Bounds.Dy)))) :
    (∃ x0 y0 x1 y1 : Int,
      detect rgb scores categories rects openOk encodeOk i st =
        writeArtifact (openOk i) (encodeOk i) (Rect x0 y0 x1 y1)
          (st.emit (Action.log "rect: %f %f %f %f")) ∧
      x0 = F32.toInt (F32.mul v0 (F32.ofInt rgb.Bounds.Dx)) ∧
      y0 = F32.toInt (F32.mul v1 (F32.ofInt rgb.Bounds.Dy)) ∧
      x1 = x0 + F32.toInt (F32.mul v2 (F32.ofInt rgb.Bounds.Dx)) ∧
      ∃ v ∈ [v0, v1, v2, v3], y1 = y0 + F32.toInt (F32.mul v (F32.ofInt rgb.Bounds.Dy))) ∧
    (∀ m e : Int, InIntRange (truncQ (F32.value m e)) →
      F32.toInt (F32.fin m e) = truncQ (F32.value m e)) := by
  constructor
  · refine ⟨_, _, _, _, ?_, rfl, rfl, rfl, v2, by simp, rfl⟩
    unfold slotAccepted at hacc
    unfold detect
    have e0 : Slice.index ⟨[v0, v1, v2, v3], sp⟩ 0 = some v0 := rfl
    have e1 : Slice.index ⟨[v0, v1, v2, v3], sp⟩ 1 = some v1 := rfl
    have e2 : Slice.index ⟨[v0, v1, v2, v3], sp⟩ 2 = some v2 := rfl
    have e3 : Slice.index ⟨[v0, v1, v2, v3], sp⟩ 3 = some v3 := rfl
    cases hc : categories.index i with
    | none => simp [hc] at hacc
    | some c =>
      cases hs : scores.index i with
      | none => simp [hc, hs] at hacc
      | some s =>
        simp only [hc, hs] at hacc
        unfold accepts at hacc
        have hgt : F32.gt c classThreshold = false := by
          cases h : F32.gt c classThreshold
          · rfl
          · simp [h] at hacc
        have hlt : F32.lt s scoreThreshold = false := by
          cases h : F32.lt s scoreThreshold
          · rfl
          · simp [h] at hacc
        simp only [hbox, e0, e1, e2, e3, hgt, hlt]
        unfold boxCoords
        simp only [wrapInt_of_inRange _ hx, wrapInt_of_inRange _ hy]
        rfl
  · intro m e h
    unfold F32.toInt
    simp only
    rw [truncFin_eq_truncQ]
    unfold InIntRange at h
    rw [if_pos h]

set_option maxRecDepth 1000000 in
/-- C3 (amended), at slot 3 of the sample outputs: the accepted box
[0.1, 0.2, 0.3, 0.4] in the picture of 1640 by 1232. -/
theorem box_mapping_witness :
    slotAccepted (floatVal sampleOutputs "detection_scores")
      (floatVal sampleOutputs "detection_classes") 3 = true ∧
    ∃ x0 y0 x1 y1 : Int,
      detect sampleRGB (floatVal sampleOutputs "detection_scores")
        (floatVal sampleOutputs "detection_classes") (floatVal sampleOutputs "detection_boxes")
        always always 3 St.init =
        writeArtifact (always 3) (always 3) (Rect x0 y0 x1 y1)
          (St.init.emit (Action.log "rect: %f %f %f %f")) ∧
      x0 = F32.toInt (F32.mul (F32.fin 13421773 (-27)) (F32.ofInt sampleRGB.Bounds.Dx)) ∧
      y0 = F32.toInt (F32.mul (F32.fin 13421773 (-26)) (F32.ofInt sampleRGB.Bounds.Dy)) ∧
      x1 = x0 + F32.toInt (F32.mul (F32.fin 10066330 (-25)) (F32.ofInt sampleRGB.Bounds.Dx)) ∧
      ∃ v ∈ [F32.fin 13421773 (-27), F32.fin 13421773 (-26), F32.fin 10066330 (-25),
          F32.fin 13421773 (-25)],
        y1 = y0 + F32.toInt (F32.mul v (F32.ofInt sampleRGB.Bounds.Dy)) :=
  ⟨by decide,
    (box_mapping sampleRGB (floatVal sampleOutputs "detection_scores")
      (floatVal sampleOutputs "detection_classes") (floatVal sampleOutputs "detection_boxes")
      always always 3 St.init (F32.fin 13421773 (-27)) (F32.fin 13421773 (-26))
      (F32.fin 10066330 (-25)) (F32.fin 13421773 (-25)) (List.replicate 384 (F32.fin 0 0))
      (by decide) (by decide) (by unfold InIntRange; decide) (by unfold InIntRange; decide)).1⟩

/-! ## The flags of the artifact file -/

set_option maxRecDepth 1000000 in
/-- C10, as stated, fails: the file of the first crop is opened with the flags
`O_CREATE` and `O_WRONLY` only; exclusivity is not requested, so a name that
already exists is not refused. -/
theorem open_is_not_exclusive :
    Action.openFile "image00000.jpg" [OpenFlag.O_CREATE, OpenFlag.O_WRONLY] 0o660 true ∈
      (run Config.default [sampleFrame]).trace ∧
    OpenFlag.O_EXCL ∉ [OpenFlag.O_CREATE, OpenFlag.O_WRONLY] ∧
    refusesExisting [OpenFlag.O_CREATE, OpenFlag.O_WRONLY] = false := by
  decide

/-- C10 (amended): every artifact file is opened with the flags
`O_CREATE|O_WRONLY` and the permission bits 0660: creation and write-only
access are requested, exclusivity (and truncation) are not, so a name that
already exists is not refused for existing. -/
theorem open_flags (cfg : Config) (envs : List FrameEnv) (name : String)
    (flag : List OpenFlag) (perm : Nat) (ok : Bool)
    (hopen : Action.openFile name flag perm ok ∈ (run cfg envs).trace) :
    flag = [OpenFlag.O_CREATE, OpenFlag.O_WRONLY] ∧ perm = 0o660 ∧
    OpenFlag.O_CREATE ∈ flag ∧ OpenFlag.O_WRONLY ∈ flag ∧ OpenFlag.O_EXCL ∉ flag ∧
    OpenFlag.O_TRUNC ∉ flag ∧ refusesExisting flag = false := by
  have key : ∀ a ∈ (run cfg envs).trace, ∀ n f p o, a = Action.openFile n f p o →
      f = openFlags ∧ p = openPerm := by
    unfold run
    refine mainLoop_induction cfg
      (fun s => ∀ a ∈ s.trace, ∀ n f p o, a = Action.openFile n f p o →
        f = openFlags ∧ p = openPerm) ?_ ?_ ?_ ?_ envs St.init ?_
    · intro s a hart _ h b hb n f p o hr
      rw [emit_trace, List.mem_append, List.mem_singleton] at hb
      rcases hb with hb | hb
      · exact h b hb n f p o hr
      · subst hb
        subst hr
        cases hart
    · intro s h
      exact h
    · intro s h b hb n f p o hr
      rw [leave_trace, List.mem_append, List.mem_singleton] at hb
      rcases hb with hb | hb
      · exact h b hb n f p o hr
      · subst hb
        cases hr
    · intro o e face s h b hb n f p o2 hr
      rw [writeArtifact_trace, List.mem_append] at hb
      rcases hb with hb | hb
      · exact h b hb n f p o2 hr
      · subst hr
        cases o <;> simp at hb <;> exact ⟨hb.2.1, hb.2.2.1⟩
    · intro a ha
      cases ha
  obtain ⟨hf, hp⟩ := key _ hopen name flag perm ok rfl
  subst hf hp
  decide

set_option maxRecDepth 1000000 in
/-- C10 (amended), at the first crop of the sample frame. -/
theorem open_flags_witness :
    Action.openFile "image00000.jpg" [OpenFlag.O_CREATE, OpenFlag.O_WRONLY] 0o660 true ∈
      (run Config.default [sampleFrame]).trace ∧
    OpenFlag.O_EXCL ∉ [OpenFlag.O_CREATE, OpenFlag.O_WRONLY] :=
  ⟨by decide,
    (open_flags Config.default [sampleFrame] "image00000.jpg"
      [OpenFlag.O_CREATE, OpenFlag.O_WRONLY] 0o660 true (by decide)).2.2.2.2.1⟩

/-! ## File names -/

theorem digitVal_digitChar (d : Nat) (h : d < 10) : digitVal (Nat.digitChar d) = d := by
  interval_cases d <;> rfl

theorem decDigits_append (fuel n : Nat) (acc : List Nat) :
    decDigits fuel n acc = decDigits fuel n [] ++ acc := by
  induction fuel generalizing n acc with
  | zero => rfl
  | succ f ih =>
    unfold decDigits
    split
    · rfl
    · rw [ih (n / 10) (n % 10 :: acc), ih (n / 10) [n % 10], List.append_assoc]
      rfl

theorem ofDec_append_singleton (xs : List Nat) (d : Nat) :
    ofDec (xs ++ [d]) = 10 * ofDec xs + d := by
  unfold ofDec
  rw [List.foldl_append]
  rfl

theorem ofDec_decDigits (fuel n : Nat) (h : n < fuel) : ofDec (decDigits fuel n []) = n := by
  induction fuel generalizing n with
  | zero => omega
  | succ f ih =>
    unfold decDigits
    split
    · unfold ofDec
      simp
    · rw [decDigits_append, ofDec_append_singleton, ih (n / 10) (by omega)]
      omega

theorem decDigits_lt_ten (fuel n : Nat) (acc : List Nat) (hacc : ∀ d ∈ acc, d < 10) :
    ∀ d ∈ decDigits fuel n acc, d < 10 := by
  induction fuel generalizing n acc with
  | zero => exact hacc
  | succ f ih =>
    unfold decDigits
    split
    · next h =>
      intro d hd
      rcases List.mem_cons.mp hd with hd | hd
      · omega
      · exact hacc d hd
    · apply ih
      intro d hd
      rcases List.mem_cons.mp hd with hd | hd
      · omega
      · exact hacc d hd

theorem ofDec_padZeros (w : Nat) (ds : List Nat) : ofDec (padZeros w ds) = ofDec ds := by
  unfold padZeros ofDec
  rw [List.foldl_append]
  congr 1
  induction (w - ds.length) with
  | zero => rfl
  | succ k ih => rw [List.replicate_succ, List.foldl_cons]; exact ih

theorem padZeros_lt_ten (w : Nat) (ds : List Nat) (h : ∀ d ∈ ds, d < 10) :
    ∀ d ∈ padZeros w ds, d < 10 := by
  intro d hd
  unfold padZeros at hd
  rcases List.mem_append.mp hd with hd | hd
  · rw [(List.mem_replicate.mp hd).2]
    omega
  · exact h d hd

theorem map_digitVal_digitChar (ds : List Nat) (h : ∀ d ∈ ds, d < 10) :
    (ds.map Nat.digitChar).map digitVal = ds := by
  induction ds with
  | nil => rfl
  | cons d t ih =>
    rw [List.map_cons, List.map_cons,
      digitVal_digitChar d (h d (List.mem_cons_self d t)),
      ih (fun x hx => h x (List.mem_cons_of_mem d hx))]

/-- The number can be read back from the text of a non-negative `%05d`. -/
theorem ofDec_fmtD05 (n : Int) (h : 0 ≤ n) : ofDec ((fmtD05 n).map digitVal) = n.natAbs := by
  unfold fmtD05
  rw [if_neg (by omega), map_digitVal_digitChar, ofDec_padZeros]
  · exact ofDec_decDigits _ _ (by omega)
  · exact padZeros_lt_ten _ _ (decDigits_lt_ten _ _ _ (fun d hd => by cases hd))

/-- Two non-negative counters with the same file name are equal. -/
theorem fileName_inj (a b : Int) (ha : 0 ≤ a) (hb : 0 ≤ b)
    (h : fileName a = fileName b) : a = b := by
  unfold fileName at h
  have h1 := congrArg String.data h
  simp only at h1
  rw [List.append_assoc, List.append_assoc] at h1
  have h2 := List.append_cancel_left h1
  have h3 := List.append_cancel_right h2
  have h4 := congrArg (fun l => ofDec (l.map digitVal)) h3
  simp only at h4
  rw [ofDec_fmtD05 a ha, ofDec_fmtD05 b hb] at h4
  omega

/-! ## The counter along a run -/

theorem wrapInt_succ (x : Int) : wrapInt (wrapInt x + 1) = wrapInt (x + 1) := by
  unfold wrapInt
  omega

theorem encodeNames_append (a b : List Action) :
    encodeNames (a ++ b) = encodeNames a ++ encodeNames b := by
  unfold encodeNames
  exact List.filterMap_append _ _ _

theorem encodeNames_emit (st : St) (a : Action) (h : a.isArtifact = false) :
    encodeNames (st.emit a).trace = encodeNames st.trace := by
  rw [emit_trace, encodeNames_append]
  cases a <;> first | (simp [encodeNames]; done) | cases h

theorem counted_writeArtifact (o e : Bool) (face : Rectangle) (st : St) (h : Counted st) :
    Counted (writeArtifact o e face st) := by
  obtain ⟨hc, hn⟩ := h
  unfold Counted
  rw [writeArtifact_trace, writeArtifact_imgCount, encodeNames_append]
  cases o
  · have : encodeNames [Action.subImage face,
        Action.openFile (fileName st.imgCount) openFlags openPerm false,
        if false = true then Action.encode (fileName st.imgCount) face e
        else Action.log "error opening file: %v"] = [] := by
      simp [encodeNames]
    rw [this, List.append_nil]
    exact ⟨hc, hn⟩
  · have : encodeNames [Action.subImage face,
        Action.openFile (fileName st.imgCount) openFlags openPerm true,
        if true = true then Action.encode (fileName st.imgCount) face e
        else Action.log "error opening file: %v"] = [fileName st.imgCount] := by
      simp [encodeNames]
    rw [this, List.length_append, List.length_singleton, List.range_succ, List.map_append,
      ← hn, if_pos rfl]
    constructor
    · rw [hc, wrapInt_succ]
      push_cast
      rfl
    · rw [hc]
      rfl

/-- Every state of a run is `Counted`. -/
theorem run_counted (cfg : Config) (envs : List FrameEnv) : Counted (run cfg envs) := by
  unfold run
  refine mainLoop_induction cfg Counted ?_ ?_ ?_ ?_ envs St.init ?_
  · intro s a ha _ h
    unfold Counted
    rw [encodeNames_emit s a ha]
    exact h
  · intro s h
    exact h
  · intro s h
    unfold Counted
    rw [leave_trace, encodeNames_append]
    have : encodeNames [Action.log "closing..."] = [] := rfl
    rw [this, List.append_nil]
    exact h
  · intro o e face s h
    exact counted_writeArtifact o e face s h
  · exact ⟨rfl, rfl⟩

theorem writtenNames_sublist (tr : List Action) : (writtenNames tr).Sublist (encodeNames tr) := by
  induction tr with
  | nil => exact List.Sublist.slnil
  | cons a t ih =>
    unfold writtenNames encodeNames at *
    cases a with
    | encode name r ok =>
      cases ok
      · simp only [List.filterMap_cons]
        exact List.Sublist.cons _ ih
      · simp only [List.filterMap_cons]
        exact List.Sublist.cons₂ _ ih
    | _ => simpa only [List.filterMap_cons] using ih

/-- The trace of a run over a prefix of the answers is a prefix of the trace
of the run over all of them. -/
theorem run_trace_grows (cfg : Config) (pre more : List FrameEnv) :
    (run cfg pre).trace <+: (run cfg (pre ++ more)).trace := by
  unfold run
  rw [mainLoop_append cfg pre more St.init rfl]
  split
  · exact mainLoop_trace_grows cfg more _
  · exact List.prefix_refl _

/-- While fewer than `2^63` encodes have been made, the counter is their
number. -/
theorem imgCount_eq_length (st : St) (h : Counted st)
    (hb : ((encodeNames st.trace).length : Int) < 2 ^ 63) :
    st.imgCount = ((encodeNames st.trace).length : Int) := by
  rw [h.1]
  apply wrapInt_of_inRange
  unfold InIntRange
  omega

/-- C8: in a run with fewer than `2^63` encodes, the counter starts at 0, is
never negative and never decreases from a shorter run to a longer one; the
encodes are made, in order, under the names of the counter values
0, 1, 2, ... (so a later write has a strictly larger counter than an earlier
one); the names of the crops written successfully are pairwise distinct; and
`image%05d.jpg` is injective on non-negative counters, of any size. -/
theorem written_names_distinct (cfg : Config) (envs : List FrameEnv)
    (hb : ((encodeNames (run cfg envs).trace).length : Int) < 2 ^ 63) :
    (run cfg []).imgCount = 0 ∧
    (∀ pre more : List FrameEnv, envs = pre ++ more →
      0 ≤ (run cfg pre).imgCount ∧ (run cfg pre).imgCount ≤ (run cfg envs).imgCount) ∧
    encodeNames (run cfg envs).trace =
      (List.range (run cfg envs).imgCount.toNat).map (fun (k : Nat) => fileName (k : Int)) ∧
    (writtenNames (run cfg envs).trace).Nodup ∧
    (∀ a b : Int, 0 ≤ a → 0 ≤ b → fileName a = fileName b → a = b) := by
  have hcount := imgCount_eq_length _ (run_counted cfg envs) hb
  have hnames : encodeNames (run cfg envs).trace =
      (List.range (encodeNames (run cfg envs).trace).length).map
        (fun (k : Nat) => fileName (k : Int)) := by
    have h2 := (run_counted cfg envs).2
    rw [h2]
    simp only [List.length_map, List.length_range]
    apply List.map_congr_left
    intro k hk
    have hk2 := List.mem_range.mp hk
    have hlen : (encodeNames (run cfg envs).trace).length =
        (List.range (encodeNames (run cfg envs).trace).length).length := by
      rw [List.length_range]
    rw [wrapInt_of_inRange]
    unfold InIntRange
    omega
  refine ⟨rfl, ?_, ?_, ?_, fileName_inj⟩
  · intro pre more hsplit
    subst hsplit
    have hpre := (run_trace_grows cfg pre more)
    have hlen : (encodeNames (run cfg pre).trace).length ≤
        (encodeNames (run cfg (pre ++ more)).trace).length := by
      obtain ⟨t, ht⟩ := hpre
      rw [← ht, encodeNames_append, List.length_append]
      omega
    have hc1 := imgCount_eq_length _ (run_counted cfg pre) (by omega)
    rw [hc1, hcount]
    omega
  · rw [hcount, Int.toNat_ofNat]
    exact hnames
  · apply List.Nodup.sublist (writtenNames_sublist _)
    rw [hnames]
    apply List.Nodup.map_on _ (List.nodup_range _)
    intro x _ y _ hxy
    have := fileName_inj x y (by omega) (by omega) hxy
    omega

set_option maxRecDepth 1000000 in
/-- C8, at a run of two sample frames: the two crops are written as
image00000.jpg and image00001.jpg. -/
theorem written_names_distinct_witness :
    ((encodeNames (run Config.default [sampleFrame, sampleFrame]).trace).length : Int) < 2 ^ 63 ∧
    writtenNames (run Config.default [sampleFrame, sampleFrame]).trace =
      ["image00000.jpg", "image00001.jpg"] ∧
    (writtenNames (run Config.default [sampleFrame, sampleFrame]).trace).Nodup :=
  ⟨by decide, by decide,
    (written_names_distinct Config.default [sampleFrame, sampleFrame] (by decide)).2.2.2.1⟩

/-! ## Short outputs -/

theorem forSlots_panics (body : Nat → St → St) (k : Nat)
    (hk : ∀ st, (body k st).status = Status.panicked) (l : List Nat) (hl : k ∈ l) (st : St) :
    (forSlots body l st).status = Status.panicked := by
  induction l generalizing st with
  | nil => cases hl
  | cons i is ih =>
    unfold forSlots
    simp only
    split
    · next h => exact h
    · next h =>
      rcases List.mem_cons.mp hl with hi | hi
      · subst hi
        exact absurd (hk st) h
      · exact ih hi _

theorem processResult_status_of_full (cfg : Config) (rgb : RGB) (res : Outputs)
    (openOk encodeOk : Nat → Bool) (st : St) (hst : st.status = Status.running)
    (hfull : FullResult cfg res) :
    (processResult cfg rgb res openOk encodeOk st).status = Status.running := by
  rw [processResult_eq_foldl cfg rgb res openOk encodeOk st (by rw [hst]; decide) hfull,
    foldl_attempt_status, emit_status, hst]

set_option maxRecDepth 1000000 in
/-- C5, as stated, fails: outputs with empty sequences panic at the log of the
first confidence, before any slot is looked at; outputs with 50 slots crop the
accepted slot 3 and then panic at slot 50.  In both runs the process dies of
the panic. -/
theorem short_outputs_panic :
    (floatVal emptyOutputs "detection_scores").len = 0 ∧
    (run Config.default [FrameEnv.ok [] sampleRGB emptyOutputs always always]).status =
      Status.panicked ∧
    (floatVal shortOutputs "detection_scores").len = 50 ∧
    (floatVal shortOutputs "detection_classes").len = 50 ∧
    (floatVal shortOutputs "detection_boxes").len = 200 ∧
    (run Config.default [FrameEnv.ok [] sampleRGB shortOutputs always always]).status =
      Status.panicked ∧
    crops (run Config.default [FrameEnv.ok [] sampleRGB shortOutputs always always]).trace =
      [⟨⟨164, 246⟩, ⟨656, 615⟩⟩] := by
  decide

/-- C5 (amended): for outputs with at least 100 scores, at least 100 classes
and room for at least 400 box values, processing the frame ends without an
out-of-range panic and the loop is still running.  Shorter outputs are not
protected: an empty score sequence always panics, and so does a class
sequence of fewer than 100 entries. -/
theorem full_outputs_do_not_panic (cfg : Config) (rgb : RGB) (res : Outputs)
    (openOk encodeOk : Nat → Bool) (data : List Nat) (st : St)
    (hst : st.status = Status.running) (hfull : FullResult cfg res) :
    (processResult cfg rgb res openOk encodeOk st).status = Status.running ∧
    (iteration cfg (FrameEnv.ok data rgb res openOk encodeOk) st).status = Status.running ∧
    (∀ res2 : Outputs, (floatVal res2 cfg.scoresOutput).len = 0 →
      (processResult cfg rgb res2 openOk encodeOk st).status = Status.panicked) ∧
    (∀ res2 : Outputs, (floatVal res2 "detection_classes").len < numSlots →
      (processResult cfg rgb res2 openOk encodeOk st).status = Status.panicked) := by
  refine ⟨processResult_status_of_full cfg rgb res openOk encodeOk st hst hfull, ?_, ?_, ?_⟩
  · exact processResult_status_of_full cfg rgb res openOk encodeOk _ hst hfull
  · intro res2 h0
    unfold processResult
    rw [index_none_of_le _ 0 (by omega)]
    rfl
  · intro res2 hlt
    unfold processResult
    split
    · rfl
    · apply forSlots_panics _ (floatVal res2 "detection_classes").len
      · intro s
        unfold detect
        rw [index_none_of_le _ _ (le_refl _)]
        rfl
      · exact List.mem_range.mpr hlt

set_option maxRecDepth 1000000 in
/-- C5 (amended), at the sample outputs, which have all 100 slots. -/
theorem full_outputs_do_not_panic_witness :
    St.init.status = Status.running ∧ FullResult Config.default sampleOutputs ∧
    (processResult Config.default sampleRGB sampleOutputs always always St.init).status =
      Status.running :=
  ⟨rfl, by unfold FullResult; decide,
    (full_outputs_do_not_panic Config.default sampleRGB sampleOutputs always always [] St.init
      rfl (by unfold FullResult; decide)).1⟩

/-! ## Fatal errors -/

theorem fetchCount_append (a b : List Action) :
    fetchCount (a ++ b) = fetchCount a + fetchCount b := by
  unfold fetchCount
  exact List.countP_append _ _ _

/-- An iteration that meets a fatal error: what it adds to the trace. -/
theorem iteration_fails (cfg : Config) (e : FrameEnv) (he : e.fails = true) (st : St) :
    (iteration cfg e st).status = Status.closed ∧
    (iteration cfg e st).imgCount = st.imgCount ∧
    ∃ new, (iteration cfg e st).trace = st.trace ++ new ∧
      (∀ a ∈ new, a.isArtifact = false) ∧ fetchCount new = 1 ∧ predictCount new ≤ 1 ∧
      (∀ req ok, Action.predict req ok ∈ new → ok = false) ∧
      new.getLast? = some (Action.log "closing...") := by
  cases e with
  | fetchErr =>
    refine ⟨rfl, rfl, [Action.fetchFrame false, Action.log "error receiving frame: %v",
      Action.log "closing..."], ?_, ?_, rfl, ?_, ?_, rfl⟩
    · simp [iteration]
    · intro a ha
      simp at ha
      rcases ha with h | h | h <;> subst h <;> rfl
    · decide
    · intro req ok h
      simp at h
  | decodeErr data =>
    refine ⟨rfl, rfl, [Action.fetchFrame true, Action.decode data false,
      Action.log "error decoding jpeg: %v", Action.log "closing..."], ?_, ?_, rfl, ?_, ?_, rfl⟩
    · simp [iteration]
    · intro a ha
      simp at ha
      rcases ha with h | h | h | h <;> subst h <;> rfl
    · simp [predictCount]
    · intro req ok h
      simp at h
  | predictErr data rgb =>
    refine ⟨rfl, rfl, [Action.fetchFrame true, Action.decode data true,
      Action.predict (buildRequest cfg rgb) false,
      Action.log "error from face detector: %v", Action.log "closing..."],
      ?_, ?_, rfl, ?_, ?_, rfl⟩
    · simp [iteration]
    · intro a ha
      simp at ha
      rcases ha with h | h | h | h | h <;> subst h <;> rfl
    · simp [predictCount]
    · intro req ok h
      simp at h
      exact h.2
  | ok data rgb res openOk encodeOk => cases he

/-- C6: when the frame fetch, the JPEG decode or the prediction call of an
iteration fails, the loop ends in that iteration.  The process leaves the loop
(status `closed`); the counter is what it was before the iteration; the
iteration adds to the trace one frame fetch, at most one prediction call (the
failed one), no crop, no open and no encode, and ends with the log line
"closing..."; and whatever the outside world would have answered afterwards is
never asked for. -/
theorem fatal_error_ends_loop (cfg : Config) (pre rest : List FrameEnv) (e : FrameEnv)
    (hpre : (run cfg pre).status = Status.running) (he : e.fails = true) :
    (run cfg (pre ++ e :: rest)).status = Status.closed ∧
    (run cfg (pre ++ e :: rest)).imgCount = (run cfg pre).imgCount ∧
    run cfg (pre ++ e :: rest) = run cfg (pre ++ [e]) ∧
    ∃ new, (run cfg (pre ++ e :: rest)).trace = (run cfg pre).trace ++ new ∧
      (∀ a ∈ new, a.isArtifact = false) ∧ fetchCount new = 1 ∧ predictCount new ≤ 1 ∧
      (∀ req ok, Action.predict req ok ∈ new → ok = false) ∧
      new.getLast? = some (Action.log "closing...") := by
  obtain ⟨hs, hc, hnew⟩ := iteration_fails cfg e he (run cfg pre)
  have hrun : ∀ tail, run cfg (pre ++ e :: tail) = iteration cfg e (run cfg pre) := by
    intro tail
    unfold run at hpre hs ⊢
    rw [mainLoop_append cfg pre (e :: tail) St.init rfl, if_pos hpre, mainLoop_cons,
      if_neg (by rw [hs]; decide)]
  rw [hrun rest, hrun []]
  exact ⟨hs, hc, rfl, hnew⟩

set_option maxRecDepth 1000000 in
/-- C6, at a run of one good frame, a failed prediction and one more good
frame that is never fetched. -/
theorem fatal_error_ends_loop_witness :
    (run Config.default [sampleFrame]).status = Status.running ∧
    (FrameEnv.predictErr [] sampleRGB).fails = true ∧
    (run Config.default ([sampleFrame] ++ FrameEnv.predictErr [] sampleRGB :: [sampleFrame])).status =
      Status.closed ∧
    (run Config.default ([sampleFrame] ++ FrameEnv.predictErr [] sampleRGB :: [sampleFrame])).imgCount =
      (run Config.default [sampleFrame]).imgCount :=
  ⟨by decide, rfl,
    (fatal_error_ends_loop Config.default [sampleFrame] [sampleFrame]
      (FrameEnv.predictErr [] sampleRGB) (by decide) rfl).1,
    (fatal_error_ends_loop Config.default [sampleFrame] [sampleFrame]
      (FrameEnv.predictErr [] sampleRGB) (by decide) rfl).2.1⟩

/-! ## The crops of a frame -/

theorem crops_append (a b : List Action) : crops (a ++ b) = crops a ++ crops b := by
  unfold crops
  exact List.filterMap_append _ _ _

theorem openResults_append (a b : List Action) :
    openResults (a ++ b) = openResults a ++ openResults b := by
  unfold openResults
  exact List.filterMap_append _ _ _

theorem attempt_openResults (rgb : RGB) (rects : Slice F32) (openOk encodeOk : Nat → Bool)
    (st : St) (i : Nat) :
    openResults (attempt rgb rects openOk encodeOk st i).trace =
      openResults st.trace ++ [openOk i] := by
  unfold attempt
  rw [writeArtifact_trace]
  cases openOk i <;> simp [openResults, List.filterMap_append]

theorem foldl_attempt_crops (rgb : RGB) (rects : Slice F32) (openOk encodeOk : Nat → Bool)
    (l : List Nat) (st : St) :
    crops (l.foldl (attempt rgb rects openOk encodeOk) st).trace =
      crops st.trace ++ l.map (slotRect rgb rects) := by
  induction l generalizing st with
  | nil => simp
  | cons i is ih =>
    rw [List.foldl_cons, ih, attempt_crops, List.map_cons, List.append_assoc]
    rfl

theorem foldl_attempt_openResults (rgb : RGB) (rects : Slice F32)
    (openOk encodeOk : Nat → Bool) (l : List Nat) (st : St) :
    openResults (l.foldl (attempt rgb rects openOk encodeOk) st).trace =
      openResults st.trace ++ l.map openOk := by
  induction l generalizing st with
  | nil => simp
  | cons i is ih =>
    rw [List.foldl_cons, ih, attempt_openResults, List.map_cons, List.append_assoc]
    rfl

/-- An iteration that gets its outputs is the processing of the outputs after
the three calls. -/
theorem iteration_ok (cfg : Config) (data : List Nat) (rgb : RGB) (res : Outputs)
    (openOk encodeOk : Nat → Bool) (st : St) :
    iteration cfg (FrameEnv.ok data rgb res openOk encodeOk) st =
      processResult cfg rgb res openOk encodeOk
        (((st.emit (Action.fetchFrame true)).emit (Action.decode data true)).emit
          (Action.predict (buildRequest cfg rgb) true)) := rfl

theorem processResult_trace_grows (cfg : Config) (rgb : RGB) (res : Outputs)
    (openOk encodeOk : Nat → Bool) (st : St) :
    st.trace <+: (processResult cfg rgb res openOk encodeOk st).trace := by
  refine processResult_induction (fun s => st.trace <+: s.trace) ?_ ?_ ?_ cfg rgb res
    openOk encodeOk st (List.prefix_refl _)
  · intro s a h
    exact h.trans (List.prefix_append _ _)
  · intro s h
    exact h
  · intro o e face s h
    rw [writeArtifact_trace]
    exact h.trans (List.prefix_append _ _)

/-- Every iteration starts with a frame fetch. -/
theorem iteration_starts_with_fetch (cfg : Config) (e : FrameEnv) (st : St) :
    ∃ ok tail, (iteration cfg e st).trace = st.trace ++ Action.fetchFrame ok :: tail := by
  cases e with
  | fetchErr => exact ⟨false, _, by simp [iteration]; rfl⟩
  | decodeErr data => exact ⟨true, _, by simp [iteration]; rfl⟩
  | predictErr data rgb => exact ⟨true, _, by simp [iteration]; rfl⟩
  | ok data rgb res openOk encodeOk =>
    obtain ⟨t, ht⟩ := processResult_trace_grows cfg rgb res openOk encodeOk
      (((st.emit (Action.fetchFrame true)).emit (Action.decode data true)).emit
        (Action.predict (buildRequest cfg rgb) true))
    refine ⟨true, Action.decode data true :: Action.predict (buildRequest cfg rgb) true :: t, ?_⟩
    rw [iteration_ok, ← ht]
    simp only [emit_trace, List.append_assoc, List.singleton_append, List.cons_append,
      List.nil_append]

/-! ## The loop over the slots, in general -/

/-- A slot that faults panics, and does nothing else. -/
theorem detect_of_faults (rgb : RGB) (scores categories rects : Slice F32)
    (openOk encodeOk : Nat → Bool) (i : Nat) (st : St)
    (hf : slotFaults scores categories rects i = true) :
    detect rgb scores categories rects openOk encodeOk i st = st.panic := by
  unfold slotFaults at hf
  unfold detect
  cases hc : categories.index i with
  | none => rfl
  | some c =>
    simp only [hc] at hf ⊢
    cases hgt : F32.gt c classThreshold
    · simp only [hgt] at hf ⊢
      cases hs : scores.index i with
      | none => rfl
      | some s =>
        simp only [hs] at hf ⊢
        cases hlt : F32.lt s scoreThreshold
        · simp only [hlt] at hf ⊢
          have hcap : rects.cap < i * 4 + 4 := by simpa using hf
          rw [slice_none rects (i * 4) hcap]
          simp
        · simp [hlt] at hf
    · simp [hgt] at hf

theorem lt_len_of_index {α : Type} (s : Slice α) (i : Nat) (x : α) (h : s.index i = some x) :
    i < s.len := by
  by_contra hn
  rw [index_none_of_le s i (by omega)] at h
  cases h

/-- A slot that does not fault is either skipped or handed to the artifact
writer. -/
theorem detect_of_not_faults (rgb : RGB) (scores categories rects : Slice F32)
    (openOk encodeOk : Nat → Bool) (i : Nat) (st : St)
    (hf : slotFaults scores categories rects i = false) :
    detect rgb scores categories rects openOk encodeOk i st =
      if slotAccepted scores categories i = true then
        attempt rgb rects openOk encodeOk st i
      else st := by
  unfold slotFaults at hf
  cases hc : categories.index i with
  | none => simp [hc] at hf
  | some c =>
    cases hgt : F32.gt c classThreshold
    · cases hs : scores.index i with
      | none => simp [hc, hgt, hs] at hf
      | some s =>
        cases hlt : F32.lt s scoreThreshold
        · have hcap : i * 4 + 4 ≤ rects.cap := by
            have : ¬ rects.cap < i * 4 + 4 := by simpa [hc, hgt, hs, hlt] using hf
            omega
          rw [detect_eq rgb scores categories rects openOk encodeOk i st
            (lt_len_of_index scores i s hs) (lt_len_of_index categories i c hc) hcap]
          rfl
        · have hdet : detect rgb scores categories rects openOk encodeOk i st = st := by
            simp [detect, hc, hgt, hs, hlt]
          have hacc : slotAccepted scores categories i = false := by
            simp [slotAccepted, accepts, hc, hs, hlt]
          rw [hdet, hacc]
          rfl
    · have hdet : detect rgb scores categories rects openOk encodeOk i st = st := by
        simp [detect, hc, hgt]
      have hacc : slotAccepted scores categories i = false := by
        unfold slotAccepted accepts
        cases scores.index i <;> simp [hc, hgt]
      rw [hdet, hacc]
      rfl

/-- The loop over any slots: the artifact writer on the accepted slots below
the first one that faults, then the panic of that one, if there is one. -/
theorem forSlots_eq (rgb : RGB) (scores categories rects : Slice F32)
    (openOk encodeOk : Nat → Bool) (l : List Nat) (st : St)
    (hst : st.status ≠ Status.panicked) :
    forSlots (detect rgb scores categories rects openOk encodeOk) l st =
      if (l.takeWhile fun i => !slotFaults scores categories rects i).length < l.length then
        (((l.takeWhile fun i => !slotFaults scores categories rects i).filter
          (slotAccepted scores categories)).foldl (attempt rgb rects openOk encodeOk) st).panic
      else
        ((l.takeWhile fun i => !slotFaults scores categories rects i).filter
          (slotAccepted scores categories)).foldl (attempt rgb rects openOk encodeOk) st := by
  induction l generalizing st with
  | nil => rfl
  | cons i is ih =>
    unfold forSlots
    simp only
    cases hf : slotFaults scores categories rects i
    · have hd := detect_of_not_faults rgb scores categories rects openOk encodeOk i st hf
      have hstat : (detect rgb scores categories rects openOk encodeOk i st).status ≠
          Status.panicked := by
        rw [hd]
        split
        · rw [attempt_status]
          exact hst
        · exact hst
      rw [if_neg hstat, ih _ hstat, hd]
      have htw : (List.takeWhile (fun i => !slotFaults scores categories rects i) (i :: is)) =
          i :: List.takeWhile (fun i => !slotFaults scores categories rects i) is := by
        rw [List.takeWhile_cons]
        simp [hf]
      rw [htw]
      simp only [List.length_cons, Nat.add_lt_add_iff_right]
      cases hacc : slotAccepted scores categories i
      · simp [List.filter_cons, hacc]
      · simp [List.filter_cons, hacc]
    · have hd := detect_of_faults rgb scores categories rects openOk encodeOk i st hf
      rw [hd, if_pos (panic_status st)]
      have htw : (List.takeWhile (fun i => !slotFaults scores categories rects i) (i :: is)) =
          [] := by
        rw [List.takeWhile_cons]
        simp [hf]
      rw [htw]
      simp

/-- When no slot of the list faults, every slot is got through. -/
theorem takeWhile_of_no_fault (p : Nat → Bool) (l : List Nat) (h : ∀ i ∈ l, p i = true) :
    l.takeWhile p = l := by
  induction l with
  | nil => rfl
  | cons i is ih =>
    rw [List.takeWhile_cons, h i (List.mem_cons_self i is),
      ih (fun j hj => h j (List.mem_cons_of_mem i hj))]
    rfl

/-- A slot is got through when no slot up to it faults. -/
theorem mem_takeWhile_range' (p : Nat → Bool) (n s j : Nat) (hs : s ≤ j) (hj : j < s + n)
    (h : ∀ k, s ≤ k → k ≤ j → p k = true) : j ∈ (List.range' s n).takeWhile p := by
  induction n generalizing s with
  | zero => omega
  | succ n ih =>
    rw [List.range'_succ, List.takeWhile_cons, h s (le_refl s) hs]
    simp only [if_true]
    rcases Nat.eq_or_lt_of_le hs with heq | hlt
    · rw [heq]
      exact List.mem_cons_self _ _
    · exact List.mem_cons_of_mem _ (ih (s + 1) hlt (by omega) (fun k hk hkj => h k (by omega) hkj))

theorem mem_takeWhile_range (p : Nat → Bool) (n j : Nat) (hj : j < n)
    (h : ∀ k, k ≤ j → p k = true) : j ∈ (List.range n).takeWhile p := by
  rw [List.range_eq_range']
  exact mem_takeWhile_range' p n 0 j (Nat.zero_le j) (by omega) (fun k _ hkj => h k hkj)

/-- Processing the outputs of any frame: a panic when there is no first score,
and otherwise the log line and the loop over the slots 0..99. -/
theorem processResult_eq (cfg : Config) (rgb : RGB) (res : Outputs)
    (openOk encodeOk : Nat → Bool) (st : St) (hst : st.status ≠ Status.panicked) :
    ∃ final : St,
      processResult cfg rgb res openOk encodeOk st = final ∧
      final.trace =
        (((visitedSlots cfg res).filter
          (slotAccepted (floatVal res cfg.scoresOutput) (floatVal res "detection_classes"))).foldl
          (attempt rgb (floatVal res cfg.boxesOutput) openOk encodeOk)
          (if (floatVal res cfg.scoresOutput).len = 0 then st
           else st.emit (Action.log "first confidence: %f"))).trace ∧
      (NoFault cfg res → final.status = st.status) := by
  refine ⟨_, rfl, ?_, ?_⟩
  · unfold processResult visitedSlots
    by_cases h0 : (floatVal res cfg.scoresOutput).len = 0
    · rw [index_none_of_le _ 0 (by omega), if_pos h0, if_pos h0]
      rfl
    · obtain ⟨x, hx, -⟩ := index_of_lt (floatVal res cfg.scoresOutput) 0 (by omega)
      simp only [hx]
      rw [if_neg h0, if_neg h0, forSlots_eq _ _ _ _ _ _ _ _ (by rw [emit_status]; exact hst)]
      split
      · rfl
      · rfl
  · intro hnf
    obtain ⟨hpos, hall⟩ := hnf
    unfold processResult
    obtain ⟨x, hx, -⟩ := index_of_lt (floatVal res cfg.scoresOutput) 0 hpos
    simp only [hx]
    rw [forSlots_eq _ _ _ _ _ _ _ _ (by rw [emit_status]; exact hst),
      takeWhile_of_no_fault _ _
        (fun i hi => by rw [hall i (List.mem_range.mp hi)]; rfl),
      if_neg (lt_irrefl _), foldl_attempt_status, emit_status]

theorem mem_takeWhile_range'_iff (p : Nat → Bool) (n s j : Nat) :
    j ∈ (List.range' s n).takeWhile p ↔
      s ≤ j ∧ j < s + n ∧ ∀ k, s ≤ k → k ≤ j → p k = true := by
  constructor
  · intro hmem
    induction n generalizing s with
    | zero => cases hmem
    | succ n ih =>
      rw [List.range'_succ, List.takeWhile_cons] at hmem
      cases hp : p s
      · rw [hp] at hmem
        cases hmem
      · rw [hp] at hmem
        simp only [if_true] at hmem
        rcases List.mem_cons.mp hmem with heq | htail
        · subst heq
          refine ⟨le_refl _, by omega, ?_⟩
          intro k hk hkj
          have : k = j := by omega
          rw [this]
          exact hp
        · obtain ⟨h1, h2, h3⟩ := ih (s + 1) htail
          refine ⟨by omega, by omega, ?_⟩
          intro k hk hkj
          rcases Nat.eq_or_lt_of_le hk with heq | hlt
          · rw [← heq]
            exact hp
          · exact h3 k hlt hkj
  · rintro ⟨hs, hj, h⟩
    exact mem_takeWhile_range' p n s j hs hj h

/-- The slots got through are those with no faulting slot up to them. -/
theorem mem_visitedSlots (cfg : Config) (res : Outputs) (j : Nat) :
    j ∈ visitedSlots cfg res ↔
      0 < (floatVal res cfg.scoresOutput).len ∧ j < numSlots ∧
      ∀ k, k ≤ j →
        slotFaults (floatVal res cfg.scoresOutput) (floatVal res "detection_classes")
          (floatVal res cfg.boxesOutput) k = false := by
  unfold visitedSlots
  by_cases h0 : (floatVal res cfg.scoresOutput).len = 0
  · rw [if_pos h0]
    constructor
    · intro h
      cases h
    · rintro ⟨hpos, -⟩
      omega
  · rw [if_neg h0, List.range_eq_range', mem_takeWhile_range'_iff]
    constructor
    · rintro ⟨-, hj, h⟩
      refine ⟨by omega, by omega, ?_⟩
      intro k hk
      have := h k (Nat.zero_le k) hk
      simpa using this
    · rintro ⟨-, hj, h⟩
      refine ⟨Nat.zero_le j, by omega, ?_⟩
      intro k _ hk
      rw [h k hk]
      rfl

theorem visitedSlots_of_noFault (cfg : Config) (res : Outputs) (h : NoFault cfg res) :
    visitedSlots cfg res = List.range numSlots := by
  obtain ⟨hpos, hall⟩ := h
  unfold visitedSlots
  rw [if_neg (by omega)]
  exact takeWhile_of_no_fault _ _ (fun i hi => by rw [hall i (List.mem_range.mp hi)]; rfl)

theorem noFault_of_full (cfg : Config) (res : Outputs) (h : FullResult cfg res) :
    NoFault cfg res := by
  obtain ⟨hs, hc, hr⟩ := h
  unfold numSlots at hs hc hr
  refine ⟨by omega, ?_⟩
  intro i hi
  unfold numSlots at hi
  obtain ⟨c, hci, -⟩ := index_of_lt (floatVal res "detection_classes") i (by omega)
  obtain ⟨s, hsi, -⟩ := index_of_lt (floatVal res cfg.scoresOutput) i (by omega)
  unfold slotFaults
  simp only [hci, hsi]
  have hcap : ¬ (floatVal res cfg.boxesOutput).cap < i * 4 + 4 := by omega
  cases F32.gt c classThreshold <;> cases F32.lt s scoreThreshold <;> simp [hcap]

/-- The crops of the iteration of any frame that gets its outputs. -/
theorem iteration_crops_eq (cfg : Config) (data : List Nat) (rgb : RGB) (res : Outputs)
    (openOk encodeOk : Nat → Bool) (st : St) (hst : st.status = Status.running) :
    crops (iteration cfg (FrameEnv.ok data rgb res openOk encodeOk) st).trace =
      crops st.trace ++
        ((visitedSlots cfg res).filter
          (slotAccepted (floatVal res cfg.scoresOutput) (floatVal res "detection_classes"))).map
          (slotRect rgb (floatVal res cfg.boxesOutput)) := by
  obtain ⟨final, hfinal, htrace, -⟩ := processResult_eq cfg rgb res openOk encodeOk
    (((st.emit (Action.fetchFrame true)).emit (Action.decode data true)).emit
      (Action.predict (buildRequest cfg rgb) true))
    (by simp only [emit_status]; rw [hst]; decide)
  rw [iteration_ok, hfinal, htrace, foldl_attempt_crops]
  split <;> simp [crops, List.filterMap_append]

/-- The answers to the opens of the iteration of any frame that gets its
outputs. -/
theorem iteration_openResults_eq (cfg : Config) (data : List Nat) (rgb : RGB) (res : Outputs)
    (openOk encodeOk : Nat → Bool) (st : St) (hst : st.status = Status.running) :
    openResults (iteration cfg (FrameEnv.ok data rgb res openOk encodeOk) st).trace =
      openResults st.trace ++
        ((visitedSlots cfg res).filter
          (slotAccepted (floatVal res cfg.scoresOutput) (floatVal res "detection_classes"))).map
          openOk := by
  obtain ⟨final, hfinal, htrace, -⟩ := processResult_eq cfg rgb res openOk encodeOk
    (((st.emit (Action.fetchFrame true)).emit (Action.decode data true)).emit
      (Action.predict (buildRequest cfg rgb) true))
    (by simp only [emit_status]; rw [hst]; decide)
  rw [iteration_ok, hfinal, htrace, foldl_attempt_openResults]
  split <;> simp [openResults, List.filterMap_append]

theorem iteration_status_of_noFault (cfg : Config) (data : List Nat) (rgb : RGB)
    (res : Outputs) (openOk encodeOk : Nat → Bool) (st : St)
    (hst : st.status = Status.running) (h : NoFault cfg res) :
    (iteration cfg (FrameEnv.ok data rgb res openOk encodeOk) st).status = Status.running := by
  obtain ⟨final, hfinal, -, hstat⟩ := processResult_eq cfg rgb res openOk encodeOk
    (((st.emit (Action.fetchFrame true)).emit (Action.decode data true)).emit
      (Action.predict (buildRequest cfg rgb) true))
    (by simp only [emit_status]; rw [hst]; decide)
  rw [iteration_ok, hfinal, hstat h]
  exact hst

/-- An iteration that has a decoded picture starts with the fetch, the decode
and the prediction call for that picture. -/
theorem iteration_starts_with_request (cfg : Config) (e : FrameEnv) (data : List Nat)
    (rgb : RGB) (hdec : e.decoded = some (data, rgb)) (st : St) :
    ∃ ok tail, (iteration cfg e st).trace =
      st.trace ++ Action.fetchFrame true :: Action.decode data true ::
        Action.predict (buildRequest cfg rgb) ok :: tail := by
  cases e with
  | fetchErr => cases hdec
  | decodeErr d => cases hdec
  | predictErr d r =>
    cases hdec
    exact ⟨false, [Action.log "error from face detector: %v", Action.log "closing..."],
      by simp [iteration]⟩
  | ok d r res openOk encodeOk =>
    cases hdec
    obtain ⟨t, ht⟩ := processResult_trace_grows cfg rgb res openOk encodeOk
      (((st.emit (Action.fetchFrame true)).emit (Action.decode data true)).emit
        (Action.predict (buildRequest cfg rgb) true))
    refine ⟨true, t, ?_⟩
    rw [iteration_ok, ← ht]
    simp only [emit_trace, List.append_assoc, List.singleton_append, List.cons_append,
      List.nil_append]

/-- Every prediction request of a run is one built by `buildRequest`. -/
theorem run_requests (cfg : Config) (envs : List FrameEnv) :
    ∀ a ∈ (run cfg envs).trace, ∀ r o, a = Action.predict r o →
      ∃ rgb, r = buildRequest cfg rgb := by
  unfold run
  refine mainLoop_induction cfg
    (fun s => ∀ a ∈ s.trace, ∀ r o, a = Action.predict r o → ∃ rgb, r = buildRequest cfg rgb)
    ?_ ?_ ?_ ?_ envs St.init ?_
  · intro s a _ ha h b hb r o hr
    rw [emit_trace, List.mem_append, List.mem_singleton] at hb
    rcases hb with hb | hb
    · exact h b hb r o hr
    · subst hb
      exact ha r o hr
  · intro s h
    exact h
  · intro s h b hb r o hr
    rw [leave_trace, List.mem_append, List.mem_singleton] at hb
    rcases hb with hb | hb
    · exact h b hb r o hr
    · subst hb
      cases hr
  · intro o e face s h b hb r o2 hr
    rw [writeArtifact_trace, List.mem_append] at hb
    rcases hb with hb | hb
    · exact h b hb r o2 hr
    · subst hr
      cases o <;> simp at hb
  · intro a ha
    cases ha

/-! ## The prediction request -/

/-- C4, as stated, fails: for a decoded picture of 2 by 1 pixels the request
declares the shape [1, 1640, 1232, 3], not [1, 2, 1, 3]. -/
theorem request_shape_ignores_picture :
    smallRGB.Bounds.Dx = 2 ∧ smallRGB.Bounds.Dy = 1 ∧
    (iteration Config.default (FrameEnv.predictErr [] smallRGB) St.init).trace.get? 2 =
      some (Action.predict
        ⟨⟨"face_detection", "serving_default", 1⟩,
          [("image_tensor", ⟨DataType.DT_UINT8, [1, 1640, 1232, 3], [10, 20, 30, 40, 50, 60]⟩)]⟩
        false) ∧
    ([1, 1640, 1232, 3] : List Int) ≠ [1, smallRGB.Bounds.Dx, smallRGB.Bounds.Dy, 3] := by
  decide

/-- C4 (amended): in every iteration of a run that decodes a picture `rgb`
from the frame data `data`, the frame fetch and the decode are followed by one
prediction call whose request names the configured model, signature and
version and has a single input tensor, under the configured input name, of
type uint8, of declared shape [1, width, height, 3] with the package level
values width = 1640 and height = 1232, whatever the dimensions of `rgb`, and
with the bytes `rgb.Pix` unchanged as its content.  Every prediction request
of the run declares that shape. -/
theorem request_shape (cfg : Config) (pre rest : List FrameEnv) (e : FrameEnv)
    (data : List Nat) (rgb : RGB)
    (hpre : (run cfg pre).status = Status.running) (hdec : e.decoded = some (data, rgb)) :
    (∃ ok tail, (run cfg (pre ++ e :: rest)).trace =
      (run cfg pre).trace ++ Action.fetchFrame true :: Action.decode data true ::
        Action.predict
          ⟨⟨cfg.modelName, cfg.signatureName, cfg.modelVersion⟩,
            [(cfg.inputName, ⟨DataType.DT_UINT8, [1, 1640, 1232, 3], rgb.Pix⟩)]⟩ ok :: tail) ∧
    (∀ req ok, Action.predict req ok ∈ (run cfg (pre ++ e :: rest)).trace →
      ∃ rgb2 : RGB, req.Inputs =
        [(cfg.inputName, ⟨DataType.DT_UINT8, [1, 1640, 1232, 3], rgb2.Pix⟩)]) := by
  constructor
  · obtain ⟨ok, tail, hit⟩ := iteration_starts_with_request cfg e data rgb hdec (run cfg pre)
    have hrun : run cfg (pre ++ e :: rest) = mainLoop cfg (e :: rest) (run cfg pre) := by
      unfold run at hpre ⊢
      rw [mainLoop_append cfg pre (e :: rest) St.init rfl, if_pos hpre]
    rw [hrun, mainLoop_cons]
    split
    · obtain ⟨t, ht⟩ := mainLoop_trace_grows cfg rest (iteration cfg e (run cfg pre))
      refine ⟨ok, tail ++ t, ?_⟩
      rw [← ht, hit]
      simp only [List.append_assoc, List.cons_append]
      rfl
    · exact ⟨ok, tail, hit⟩
  · intro req ok hreq
    obtain ⟨rgb2, h2⟩ := run_requests cfg (pre ++ e :: rest) _ hreq req ok rfl
    exact ⟨rgb2, by rw [h2]; rfl⟩

/-- C4 (amended), at a run of one frame with the picture of 2 by 1 pixels,
whose six bytes are the content of the request. -/
theorem request_shape_witness :
    (run Config.default []).status = Status.running ∧
    (FrameEnv.predictErr [7] smallRGB).decoded = some ([7], smallRGB) ∧
    ∃ ok tail, (run Config.default ([] ++ FrameEnv.predictErr [7] smallRGB :: [])).trace =
      (run Config.default []).trace ++ Action.fetchFrame true :: Action.decode [7] true ::
        Action.predict
          ⟨⟨"face_detection", "serving_default", 1⟩,
            [("image_tensor", ⟨DataType.DT_UINT8, [1, 1640, 1232, 3], [10, 20, 30, 40, 50, 60]⟩)]⟩
          ok :: tail :=
  ⟨rfl, rfl,
    (request_shape Config.default [] [] (FrameEnv.predictErr [7] smallRGB) [7] smallRGB
      rfl rfl).1⟩

/-! ## A failed open -/

set_option maxRecDepth 1000000 in
/-- C7, as stated, fails: slots 3 and 7 pass the filter, the outputs hold 16
box values and the open of slot 3 is refused.  The loop panics on the box of
slot 7: only slot 3 is cropped and opened, slot 7 is not attempted, and the
next frame is never fetched. -/
theorem later_slot_lost_to_panic :
    slotAccepted (floatVal sixteenBoxOutputs "detection_scores")
      (floatVal sixteenBoxOutputs "detection_classes") 3 = true ∧
    slotAccepted (floatVal sixteenBoxOutputs "detection_scores")
      (floatVal sixteenBoxOutputs "detection_classes") 7 = true ∧
    (floatVal sixteenBoxOutputs "detection_boxes").cap = 16 ∧
    exceptThree 3 = false ∧
    openResults (run Config.default
      [FrameEnv.ok [] sampleRGB sixteenBoxOutputs exceptThree always, sampleFrame]).trace =
        [false] ∧
    crops (run Config.default
      [FrameEnv.ok [] sampleRGB sixteenBoxOutputs exceptThree always, sampleFrame]).trace =
        [⟨⟨164, 246⟩, ⟨656, 615⟩⟩] ∧
    fetchCount (run Config.default
      [FrameEnv.ok [] sampleRGB sixteenBoxOutputs exceptThree always, sampleFrame]).trace = 1 ∧
    (run Config.default
      [FrameEnv.ok [] sampleRGB sixteenBoxOutputs exceptThree always, sampleFrame]).status =
        Status.panicked := by
  decide

/-- C7 (amended): let slot `i` pass the filter, have its box in range and fail
to open its file.  That detection leaves the counter (and the status) as it
found them and records one refused open.  Processing continues as far as the
outputs reach: the crops and the opens of the frame are those of the accepted
slots among the slots got through (the slots below the first one that is out
of range), in slot order; so every later slot `j > i` that passes the filter
is still cropped when no slot up to `j` is out of range.  When no slot of the
frame is out of range (as when the outputs hold 100 scores, 100 classes and
400 box values), the frame ends with the loop still running and the next
frame is fetched. -/
theorem open_failure_is_local (cfg : Config) (data : List Nat) (rgb : RGB) (res : Outputs)
    (openOk encodeOk : Nat → Bool) (next : FrameEnv) (rest : List FrameEnv) (st : St) (i : Nat)
    (hst : st.status = Status.running)
    (hacc : slotAccepted (floatVal res cfg.scoresOutput) (floatVal res "detection_classes") i =
      true)
    (hbox : i * 4 + 4 ≤ (floatVal res cfg.boxesOutput).cap)
    (hfail : openOk i = false) :
    (∀ s : St,
      (detect rgb (floatVal res cfg.scoresOutput) (floatVal res "detection_classes")
        (floatVal res cfg.boxesOutput) openOk encodeOk i s).imgCount = s.imgCount ∧
      (detect rgb (floatVal res cfg.scoresOutput) (floatVal res "detection_classes")
        (floatVal res cfg.boxesOutput) openOk encodeOk i s).status = s.status ∧
      openResults (detect rgb (floatVal res cfg.scoresOutput) (floatVal res "detection_classes")
        (floatVal res cfg.boxesOutput) openOk encodeOk i s).trace =
          openResults s.trace ++ [false]) ∧
    crops (iteration cfg (FrameEnv.ok data rgb res openOk encodeOk) st).trace =
      crops st.trace ++
        ((visitedSlots cfg res).filter
          (slotAccepted (floatVal res cfg.scoresOutput) (floatVal res "detection_classes"))).map
          (slotRect rgb (floatVal res cfg.boxesOutput)) ∧
    openResults (iteration cfg (FrameEnv.ok data rgb res openOk encodeOk) st).trace =
      openResults st.trace ++
        ((visitedSlots cfg res).filter
          (slotAccepted (floatVal res cfg.scoresOutput) (floatVal res "detection_classes"))).map
          openOk ∧
    (∀ j, i < j → j < numSlots →
      slotAccepted (floatVal res cfg.scoresOutput) (floatVal res "detection_classes") j = true →
      (∀ k, k ≤ j →
        slotFaults (floatVal res cfg.scoresOutput) (floatVal res "detection_classes")
          (floatVal res cfg.boxesOutput) k = false) →
      slotRect rgb (floatVal res cfg.boxesOutput) j ∈
        (crops (iteration cfg (FrameEnv.ok data rgb res openOk encodeOk) st).trace).drop
          (crops st.trace).length) ∧
    (NoFault cfg res →
      (iteration cfg (FrameEnv.ok data rgb res openOk encodeOk) st).status = Status.running ∧
      ∃ ok tail,
        (mainLoop cfg (FrameEnv.ok data rgb res openOk encodeOk :: next :: rest) st).trace =
          (iteration cfg (FrameEnv.ok data rgb res openOk encodeOk) st).trace ++
            Action.fetchFrame ok :: tail) ∧
    (FullResult cfg res → NoFault cfg res) := by
  have hcrops := iteration_crops_eq cfg data rgb res openOk encodeOk st hst
  have hlen : 0 < (floatVal res cfg.scoresOutput).len ∧
      i < (floatVal res cfg.scoresOutput).len ∧ i < (floatVal res "detection_classes").len := by
    unfold slotAccepted at hacc
    cases hc : (floatVal res "detection_classes").index i with
    | none => simp [hc] at hacc
    | some c =>
      cases hs : (floatVal res cfg.scoresOutput).index i with
      | none => simp [hc, hs] at hacc
      | some s =>
        have h1 := lt_len_of_index _ i s hs
        have h2 := lt_len_of_index _ i c hc
        exact ⟨by omega, h1, h2⟩
  refine ⟨?_, hcrops, iteration_openResults_eq cfg data rgb res openOk encodeOk st hst,
    ?_, ?_, noFault_of_full cfg res⟩
  · intro s
    rw [detect_eq rgb _ _ _ openOk encodeOk i s hlen.2.1 hlen.2.2 hbox, if_pos hacc]
    refine ⟨?_, ?_, ?_⟩
    · rw [writeArtifact_imgCount, hfail]
      rfl
    · rw [writeArtifact_status, emit_status]
    · have := attempt_openResults rgb (floatVal res cfg.boxesOutput) openOk encodeOk s i
      unfold attempt at this
      rw [this, hfail]
  · intro j _ hj hjacc hnf
    rw [hcrops, List.drop_left]
    apply List.mem_map_of_mem
    rw [List.mem_filter]
    exact ⟨(mem_visitedSlots cfg res j).mpr ⟨hlen.1, hj, hnf⟩, hjacc⟩
  · intro hnf
    have hstat := iteration_status_of_noFault cfg data rgb res openOk encodeOk st hst hnf
    refine ⟨hstat, ?_⟩
    obtain ⟨ok, tail, hnext⟩ := iteration_starts_with_fetch cfg next
      (iteration cfg (FrameEnv.ok data rgb res openOk encodeOk) st)
    rw [mainLoop_cons, if_pos hstat, mainLoop_cons]
    split
    · obtain ⟨t, ht⟩ := mainLoop_trace_grows cfg rest
        (iteration cfg next (iteration cfg (FrameEnv.ok data rgb res openOk encodeOk) st))
      refine ⟨ok, tail ++ t, ?_⟩
      rw [← ht, hnext, List.append_assoc, List.cons_append]
    · exact ⟨ok, tail, hnext⟩

set_option maxRecDepth 1000000 in
/-- C7 (amended), at a frame with all its slots whose slots 3 and 7 are
accepted, the open of slot 3 being refused: slot 7 is still opened, the
counter ends at 1 and the loop is still running. -/
theorem open_failure_is_local_witness :
    St.init.status = Status.running ∧
    slotAccepted (floatVal twoOutputs "detection_scores")
      (floatVal twoOutputs "detection_classes") 3 = true ∧
    3 * 4 + 4 ≤ (floatVal twoOutputs "detection_boxes").cap ∧
    exceptThree 3 = false ∧
    openResults (iteration Config.default
      (FrameEnv.ok [] sampleRGB twoOutputs exceptThree always) St.init).trace =
        [false, true] ∧
    (iteration Config.default (FrameEnv.ok [] sampleRGB twoOutputs exceptThree always)
      St.init).imgCount = 1 ∧
    (iteration Config.default (FrameEnv.ok [] sampleRGB twoOutputs exceptThree always)
      St.init).status = Status.running :=
  ⟨rfl, by decide, by decide, rfl, by decide, by decide,
    ((open_failure_is_local Config.default [] sampleRGB twoOutputs exceptThree always
      FrameEnv.fetchErr [] St.init 3 rfl (by decide) (by decide) rfl).2.2.2.2.1
      (noFault_of_full Config.default twoOutputs (by unfold FullResult; decide))).1⟩

/-! ## The rectangles of a frame -/

set_option maxRecDepth 1000000 in
/-- C9, as stated, fails: with 100 scores and classes and 14 box values, slot
3 is the one slot of 0..99 that passes the filter, yet the loop panics on its
box and no rectangle is cropped. -/
theorem missing_box_no_crop :
    (floatVal fewBoxesOutputs "detection_scores").len = 100 ∧
    (floatVal fewBoxesOutputs "detection_classes").len = 100 ∧
    (floatVal fewBoxesOutputs "detection_boxes").cap = 14 ∧
    (List.range 100).filter (slotAccepted (floatVal fewBoxesOutputs "detection_scores")
      (floatVal fewBoxesOutputs "detection_classes")) = [3] ∧
    crops (iteration Config.default (FrameEnv.ok [] sampleRGB fewBoxesOutputs always always)
      St.init).trace = [] ∧
    (iteration Config.default (FrameEnv.ok [] sampleRGB fewBoxesOutputs always always)
      St.init).status = Status.panicked := by
  decide

/-- C9 (amended): for every frame, the rectangles handed to cropping are, in
order, the rectangles of the slots that pass the filter among the slots the
loop gets through, in ascending slot order: one per accepted slot, none for a
rejected one.  The slots got through are the slots of 0..99 with no
out-of-range slot up to them (none when there is no first score); they are
all of 0..99 when no slot is out of range, as when the outputs hold 100
scores, 100 classes and 400 box values.  The rectangle of an accepted slot
`i` whose box is in range is `image.Rect` of the box mapping applied to the
box values `4*i .. 4*i+3`. -/
theorem crops_follow_accepted_slots (cfg : Config) (data : List Nat) (rgb : RGB)
    (res : Outputs) (openOk encodeOk : Nat → Bool) (st : St)
    (hst : st.status = Status.running) :
    crops (iteration cfg (FrameEnv.ok data rgb res openOk encodeOk) st).trace =
      crops st.trace ++
        ((visitedSlots cfg res).filter
          (slotAccepted (floatVal res cfg.scoresOutput) (floatVal res "detection_classes"))).map
          (slotRect rgb (floatVal res cfg.boxesOutput)) ∧
    (∀ j, j ∈ visitedSlots cfg res ↔
      0 < (floatVal res cfg.scoresOutput).len ∧ j < 100 ∧
      ∀ k, k ≤ j →
        slotFaults (floatVal res cfg.scoresOutput) (floatVal res "detection_classes")
          (floatVal res cfg.boxesOutput) k = false) ∧
    (NoFault cfg res → visitedSlots cfg res = List.range 100) ∧
    (FullResult cfg res → NoFault cfg res) ∧
    (∀ i c s, (floatVal res "detection_classes").index i = some c →
      (floatVal res cfg.scoresOutput).index i = some s →
      i * 4 + 4 ≤ (floatVal res cfg.boxesOutput).cap →
      slotAccepted (floatVal res cfg.scoresOutput) (floatVal res "detection_classes") i =
        accepts c s ∧
      ∃ r0 r1 r2 r3 sp,
        (floatVal res cfg.boxesOutput).slice (i * 4) (i * 4 + 4) =
          some ⟨[r0, r1, r2, r3], sp⟩ ∧
        slotRect rgb (floatVal res cfg.boxesOutput) i =
          Rect (boxCoords rgb r0 r1 r2).1 (boxCoords rgb r0 r1 r2).2.1
            (boxCoords rgb r0 r1 r2).2.2.1 (boxCoords rgb r0 r1 r2).2.2.2) := by
  refine ⟨iteration_crops_eq cfg data rgb res openOk encodeOk st hst,
    mem_visitedSlots cfg res, visitedSlots_of_noFault cfg res, noFault_of_full cfg res, ?_⟩
  intro i c s hci hsi hcap
  obtain ⟨r0, r1, r2, r3, sp, hsl, h0, h1, h2, -⟩ :=
    slice_four (floatVal res cfg.boxesOutput) (i * 4) hcap
  refine ⟨?_, r0, r1, r2, r3, sp, hsl, ?_⟩
  · unfold slotAccepted
    simp only [hci, hsi]
  · unfold slotRect
    simp only [h0, h1, h2]

set_option maxRecDepth 1000000 in
/-- C9 (amended), at the sample frame: 100 slots of which only slot 3 passes
(class 1.0, score 0.91, box [0.1, 0.2, 0.3, 0.4]) in a picture of 1640 by
1232.  All the slots are got through and exactly one rectangle is cropped,
with x0 = 164 and y0 = 246. -/
theorem crops_follow_accepted_slots_witness :
    St.init.status = Status.running ∧
    visitedSlots Config.default sampleOutputs = List.range 100 ∧
    crops (iteration Config.default (FrameEnv.ok [] sampleRGB sampleOutputs always always)
      St.init).trace =
      crops St.init.trace ++
        ((visitedSlots Config.default sampleOutputs).filter
          (slotAccepted (floatVal sampleOutputs Config.default.scoresOutput)
            (floatVal sampleOutputs "detection_classes"))).map
          (slotRect sampleRGB (floatVal sampleOutputs Config.default.boxesOutput)) ∧
    crops (iteration Config.default (FrameEnv.ok [] sampleRGB sampleOutputs always always)
      St.init).trace = [⟨⟨164, 246⟩, ⟨656, 615⟩⟩] :=
  ⟨rfl, by decide,
    (crops_follow_accepted_slots Config.default [] sampleRGB sampleOutputs always always St.init
      rfl).1,
    by decide⟩

end FaceProcessor
